import Mathlib

/-!
Verification development for the code2flow2 call-graph engine.

The Python sources `code2flow/engine.py` and `code2flow/python.py` are
shallowly embedded below.  Nodes and groups live in an arena (`St`): a node
or group is addressed by its index, mirroring Python object identity, and
mutation (synthesis of implicit constructors, placeholder nodes, library
nodes) is explicit state passing.  Helper methods of the data classes that
live in the repository module `model.py` (which is not part of the sources
at hand) are modelled from the specification text; each such definition is
marked `Modelled from the spec:` in its doc comment.
-/

namespace Code2flow

/-- Characters of a string up to the first dot. -/
def takeUntilDot : List Char → List Char
  | [] => []
  | c :: cs => if c = '.' then [] else c :: takeUntilDot cs

/-- Split a list of characters at every dot. -/
def splitDotAux : List Char → List (List Char)
  | [] => [[]]
  | c :: cs =>
    match splitDotAux cs with
    | [] => [[]]
    | h :: t => if c = '.' then [] :: h :: t else (c :: h) :: t

/-- Components of a dotted name, i.e. Python `s.split(".")`. -/
def splitOnDot (s : String) : List String :=
  (splitDotAux s.data).map String.mk

/-- Whether the string contains a dot, i.e. Python `"." in s`. -/
def containsDot (s : String) : Bool :=
  s.data.contains '.'

/-- First dotted component: Python `s.split(".")[0] if "." in s else s`. -/
def firstComponent (s : String) : String :=
  (splitOnDot s).headD s

/-- Last dotted component: Python `s.split(".")[-1]`. -/
def lastComponent (s : String) : String :=
  (splitOnDot s).getLastD s

/-- Join name components with dots. -/
def joinDots : List String → String
  | [] => ""
  | [s] => s
  | s :: rest => s ++ "." ++ joinDots rest

/-- Python `s.rsplit(".", 1)` for a string that contains a dot:
the part before the last dot and the part after it. -/
def rsplitDot (s : String) : String × String :=
  ((joinDots (splitOnDot s).dropLast), (splitOnDot s).getLastD s)

/-- `djoin` from model.py, as exercised by engine.py: join two tokens
with a dot (used to build signatures such as `module.function`). -/
def djoin (a b : String) : String := a ++ "." ++ b

/-- `OWNER_CONST.UNKNOWN_VAR` sentinel from model.py. -/
def UNKNOWN_VAR : String := "UNKNOWN_VAR"

/-- `OWNER_CONST.UNKNOWN_MODULE` sentinel from model.py. -/
def UNKNOWN_MODULE : String := "UNKNOWN_MODULE"

/-- `GROUP_TYPE` from model.py: a group is a file, a class or a library
pseudo-namespace. -/
inductive GroupType where
  | FILE
  | CLASS
  | NAMESPACE
deriving DecidableEq, Repr, Inhabited

/-- `Call` from model.py: one call-expression site.  `owner_token` is the
textual prefix (absent for bare calls); `indirect` carries the
`(container, key)` of a dict dispatch; `factory_call` names the inner call
of a `factory()(...)` pattern.  The `via_super` / `via_factory` marks that
the engine sets on a resolved call are carried in `FindRes` instead. -/
structure Call where
  token : String
  owner_token : Option String := none
  line_number : Nat := 0
  is_library : Bool := false
  arg_tokens : List String := []
  indirect : Option (String × String) := none
  factory_call : Option String := none
deriving DecidableEq, Repr, Inhabited

/-- `Call.is_attr` from model.py, pinned down by tests/test_call.py:
true exactly when an owner token is present (truthy). -/
def Call.isAttr (c : Call) : Bool :=
  match c.owner_token with
  | some s => s ≠ ""
  | none => false

/-- `Call.to_string` from model.py, pinned down by tests/test_call.py:
`owner.token()` for attribute calls, `token()` for bare calls. -/
def Call.toStr (c : Call) : String :=
  match c.owner_token with
  | some ow => if ow ≠ "" then ow ++ "." ++ c.token ++ "()" else c.token ++ "()"
  | none => c.token ++ "()"

/-- What a `Variable` points to: a provisional string (module path or
sentinel), a group, a node, a call (e.g. `p = Ctor()`), or a dict-literal
mapping.  Groups and nodes are arena indices. -/
inductive PointsTo where
  | str (s : String)
  | grp (g : Nat)
  | node (n : Nat)
  | call (c : Call)
  | mapping (m : List (String × String))
deriving DecidableEq, Repr, Inhabited

/-- Python truthiness of a `points_to` value (tests/test_variable.py show
falsy-but-present values such as an empty mapping are legal bindings). -/
def PointsTo.truthy : PointsTo → Bool
  | .str s => s ≠ ""
  | .mapping m => ¬ m.isEmpty
  | _ => true

/-- `Variable` from model.py: a name binding inside a scope. -/
structure Variable where
  token : String
  points_to : PointsTo
  line_number : Nat := 0
deriving DecidableEq, Repr, Inhabited

/-- `Node` from model.py (arena record): a callable unit.  `parent` is the
owning group index.  `vars` renders the source field `variables` (a
reserved word here) and distinguishes Python `None` from an empty list.
`return_tokens` / `returns_lambda` are the factory-detection fields
recorded by python.py `make_nodes`. -/
structure NodeRec where
  token : String
  parent : Option Nat := none
  calls : List Call := []
  vars : Option (List Variable) := none
  import_tokens : List String := []
  line_number : Option Nat := none
  is_constructor : Bool := false
  is_library : Bool := false
  missing : Bool := false
  implicit_constructor : Bool := false
  return_tokens : List String := []
  returns_lambda : Bool := false
deriving DecidableEq, Repr, Inhabited

/-- `Group` from model.py (arena record): a namespace.  `nodes` and
`subgroups` are arena indices; `inherits` is the post-resolution list of
base-class node lists. -/
structure GroupRec where
  token : String
  group_type : GroupType := .FILE
  parent : Option Nat := none
  nodes : List Nat := []
  subgroups : List Nat := []
  inherits : List (List Nat) := []
  import_tokens : List String := []
deriving DecidableEq, Repr, Inhabited

/-- The arena of all node and group objects. -/
structure St where
  nodes : List NodeRec
  groups : List GroupRec
deriving DecidableEq, Repr, Inhabited

/-- The node record stored at an index (a dangling index yields the
inhabited default, whose empty token matches no real call token). -/
def St.node (st : St) (i : Nat) : NodeRec := st.nodes.getD i default

/-- The group record stored at an index. -/
def St.group (st : St) (i : Nat) : GroupRec := st.groups.getD i default

/-- Modelled from the spec: `Group.get_constructor` from model.py, which is
not under src/.  The explicitly defined constructor of a class, if any
(its node carries the `is_constructor` flag). -/
def getConstructor (st : St) (g : GroupRec) : Option Nat :=
  g.nodes.find? (fun i => (st.node i).is_constructor)

/-- Modelled from the spec: `Node.file_group` from model.py, which is not
under src/.  The FILE group enclosing a node, found by walking the owning
parent chain (spec section 3: every group except file-level roots has
exactly one owning parent). -/
def fileGroupAux (st : St) : Nat → Option Nat → Option Nat
  | 0, _ => none
  | _, none => none
  | fuel + 1, some gid =>
    let g := st.group gid
    if g.group_type = .FILE then some gid else fileGroupAux st fuel g.parent

/-- The FILE group of a node (fuel bounded by the number of groups). -/
def fileGroupOfNode (st : St) (n : Nat) : Option Nat :=
  fileGroupAux st (st.groups.length + 1) (st.node n).parent

/-- Modelled from the spec: `Node.get_variables(line_number)` from
model.py, which is not under src/.  Spec section 4.3 step 6: the variables
visible at the call site; a variable is visible once its defining line has
been reached. -/
def getVariables (st : St) (n : Nat) (line : Nat) : List Variable :=
  match (st.node n).vars with
  | none => []
  | some vs => vs.filter (fun v => v.line_number ≤ line)

/-- Modelled from the spec: `Call.matches_variable` from model.py, which
is not under src/.  Spec section 4.3 step 6: test whether the call's owner
token structurally matches the variable's token (exact token match for
bare calls, owner-token match for attribute calls); on a match the
variable's recorded binding is returned. -/
def matchesVariable (c : Call) (v : Variable) : Option PointsTo :=
  if c.isAttr then
    if c.owner_token = some v.token then some v.points_to else none
  else
    if c.token = v.token then some v.points_to else none

/-- Whether a node's parent group (if any) has the given token
(`node.parent.token == x` guarded by `isinstance(node.parent, Group)`). -/
def parentTokenIs (st : St) (i : Nat) (tok : String) : Bool :=
  match (st.node i).parent with
  | some p => (st.group p).token = tok
  | none => false

/-- `_find_library_node_by_signature` from engine.py: given a library
attribute call, find a node whose import tokens contain the
`owner.token` signature or whose parent group is named like the owner's
module; concrete nodes are preferred, synthesized library nodes are the
fallback. -/
def findLibraryNodeBySignature (c : Call) (allNodes : List Nat) (st : St) : Option Nat :=
  match c.owner_token with
  | some ow =>
    if c.is_library ∧ c.isAttr ∧ ow ≠ "" then
      let sig := djoin ow c.token
      let moduleName := firstComponent ow
      let candidates := allNodes.filter (fun i => (st.node i).token = c.token)
      match candidates.find? (fun i =>
          sig ∈ (st.node i).import_tokens ∨ parentTokenIs st i moduleName) with
      | some n => some n
      | none =>
        allNodes.find? (fun i =>
          (st.node i).is_library ∧ (st.node i).token = c.token ∧
          (sig ∈ (st.node i).import_tokens ∨ parentTokenIs st i moduleName))
    else none
  | none => none

/-- `_find_library_node_from_variable` from engine.py: when a variable's
binding is itself a library constructor call, look up the library node for
the method invoked through that variable. -/
def findLibraryNodeFromVariable (c : Call) (v : Variable) (allNodes : List Nat)
    (st : St) : Option Nat :=
  if c.isAttr ∧ c.owner_token = some v.token then
    match v.points_to with
    | .call lc =>
      if lc.is_library ∧ lc.isAttr then
        match lc.owner_token with
        | some low =>
          let libModule := firstComponent low
          let candidates := allNodes.filter (fun i => (st.node i).token = c.token)
          candidates.find? (fun i =>
            (st.node i).is_library ∧ (st.node i).token = c.token ∧
            parentTokenIs st i libModule)
        | none => none
      else none
    | _ => none
  else none

/-- Result of `_find_link_for_call`: a single resolved node (with the
`via_super` / `via_factory` marks the engine sets on the call), the raw
binding returned by variable matching (a Group, Node or other value), an
ambiguity with the candidate list, or no match. -/
inductive FindRes where
  | found (n : Nat) (viaSuper : Bool) (viaFactory : Bool)
  | foundPt (p : PointsTo)
  | ambiguous (cands : List Nat)
  | nomatch
deriving DecidableEq, Repr, Inhabited

/-- The `via_super` mark carried by a resolution result. -/
def FindRes.viaSuper : FindRes → Bool
  | .found _ vs _ => vs
  | _ => false

/-- The `via_factory` mark carried by a resolution result. -/
def FindRes.viaFactory : FindRes → Bool
  | .found _ _ vf => vf
  | _ => false

/-- The inheritance-chain candidates for a call token: engine.py iterates
`parent_group.inherits` (a list of node lists) and collects every node
whose token equals the call token. -/
def superCandidates (st : St) (g : GroupRec) (tok : String) : List Nat :=
  g.inherits.flatten.filter (fun i => (st.node i).token = tok)

/-- Whether a node's parent group is a FILE group (`isinstance(node.parent,
Group) and node.parent.group_type == GROUP_TYPE.FILE`). -/
def isFileScoped (st : St) (i : Nat) : Bool :=
  match (st.node i).parent with
  | some p => (st.group p).group_type = .FILE
  | none => false

/-- Strategy of engine.py lines 600-621: `super().method()` dispatch over
the enclosing class's resolved inheritance chain (heuristics gated). -/
def stageSuper (heur : Bool) (c : Call) (nodeA : Nat) (st : St) : Option FindRes :=
  if heur = true ∧ c.isAttr = true ∧ c.owner_token = some "super" then
    match (st.node nodeA).parent with
    | some gid =>
      if (st.group gid).group_type = .CLASS then
        match superCandidates st (st.group gid) c.token with
        | [] => none
        | [cand] => some (.found cand true false)
        | c1 :: c2 :: rest => some (.ambiguous (c1 :: c2 :: rest))
      else none
    | none => none
  else none

/-- Strategy of engine.py lines 624-678: `self.method()` dispatch.  The
methods defined directly on the enclosing class are searched first; when
none match, inheritance-chain candidates are collected, but a nested class
(subgroup) whose token equals the call token is resolved to its
constructor before the inheritance candidates are acted on, synthesizing
an implicit constructor node (registered in the subgroup and in the
global node list) when none is defined. -/
def stageSelf (heur : Bool) (c : Call) (nodeA : Nat) (allNodes : List Nat)
    (st : St) : Option (FindRes × List Nat × St) :=
  if heur = true ∧ c.isAttr = true ∧ c.owner_token = some "self" then
    match (st.node nodeA).parent with
    | some gid =>
      let g := st.group gid
      if g.group_type = .CLASS then
        match g.nodes.filter (fun i => (st.node i).token = c.token) with
        | [cand] => some (.found cand false false, allNodes, st)
        | c1 :: c2 :: rest => some (.ambiguous (c1 :: c2 :: rest), allNodes, st)
        | [] =>
          let inhCands := superCandidates st g c.token
          match g.subgroups.find? (fun sgid => (st.group sgid).token = c.token) with
          | some sgid =>
            match getConstructor st (st.group sgid) with
            | some ctor => some (.found ctor false false, allNodes, st)
            | none =>
              let newId := st.nodes.length
              let synth : NodeRec :=
                { token := "__init__", parent := some sgid,
                  is_constructor := true, implicit_constructor := true }
              let sg := st.group sgid
              let st1 : St :=
                { nodes := st.nodes ++ [synth],
                  groups := st.groups.set sgid { sg with nodes := sg.nodes ++ [newId] } }
              some (.found newId false false, allNodes ++ [newId], st1)
          | none =>
            match inhCands with
            | [] => none
            | [cand] => some (.found cand false false, allNodes, st)
            | c1 :: c2 :: rest => some (.ambiguous (c1 :: c2 :: rest), allNodes, st)
      else none
    | none => none
  else none

/-- Strategy of engine.py lines 693-713: an attribute call with an unknown
(or absent) owner, made from a method whose body also calls `super()`, is
treated as a `super()` call over the inheritance chain. -/
def stageUnknownSuper (heur : Bool) (c : Call) (nodeA : Nat) (st : St) : Option FindRes :=
  if heur = true ∧ c.isAttr = true ∧
      (c.owner_token = some UNKNOWN_VAR ∨ c.isAttr = false) then
    match (st.node nodeA).parent with
    | some gid =>
      if (st.group gid).group_type = .CLASS then
        match superCandidates st (st.group gid) c.token with
        | [] => none
        | cands =>
          let hasSuper := (st.node nodeA).calls.any
            (fun cc => cc.token = "super" ∨ cc.owner_token = some "super")
          if hasSuper then
            match cands with
            | [cand] => some (.found cand true false)
            | _ => some (.ambiguous cands)
          else none
      else none
    | none => none
  else none

/-- Strategy of engine.py lines 718-725: for an attribute call, scan the
visible variables for one whose token equals the owner token and whose
binding is a library instance, and link to the library method node. -/
def stageLibVar (c : Call) (vs : List Variable) (allNodes : List Nat)
    (st : St) : Option Nat :=
  if c.isAttr = true then
    vs.findSome? (fun v =>
      if c.owner_token = some v.token then
        findLibraryNodeFromVariable c v allNodes st
      else none)
  else none

/-- Strategy of engine.py lines 728-742: variable matching.  The first
visible variable whose token structurally matches decides: the
unknown-module sentinel aborts the whole resolution (`some .nomatch`);
otherwise a library-signature match is preferred when one exists, else the
variable's binding is returned as is. -/
def varMatchBody (c : Call) (allNodes : List Nat) (st : St) (v : Variable) :
    Option FindRes :=
  match matchesVariable c v with
  | some pt =>
    if pt.truthy = true then
      if pt = .str UNKNOWN_MODULE then some .nomatch
      else
        match findLibraryNodeBySignature c allNodes st with
        | some lib => some (.found lib false false)
        | none => some (.foundPt pt)
    else none
  | none => none

/-- The loop of engine.py lines 728-742 over the visible variables. -/
def stageVarMatch (c : Call) (vs : List Variable) (allNodes : List Nat)
    (st : St) : Option FindRes :=
  vs.findSome? (varMatchBody c allNodes st)

/-- Strategy of engine.py lines 747-786: factory-return resolution.  The
factory node (file-scope preferred) is inspected: a returned name that
matches a known node resolves the call (marked via factory); a factory
known to return a lambda gets a synthesized lambda node under the
factory's parent. -/
def stageFactory (c : Call) (allNodes : List Nat) (st : St) :
    Option (FindRes × List Nat × St) :=
  match c.factory_call with
  | none => none
  | some fname =>
    match allNodes.filter (fun i => (st.node i).token = fname) with
    | [] => none
    | f0 :: fs =>
      let factory := ((f0 :: fs).find? (fun i => isFileScoped st i)).getD f0
      let nd := st.node factory
      match nd.return_tokens.findSome? (fun rt =>
          allNodes.find? (fun i => (st.node i).token = rt)) with
      | some target => some (.found target false true, allNodes, st)
      | none =>
        if nd.returns_lambda then
          let newId := st.nodes.length
          let synth : NodeRec :=
            { token := nd.token ++ "::<lambda>", parent := nd.parent }
          let groups1 :=
            match nd.parent with
            | some p =>
              let pg := st.group p
              st.groups.set p { pg with nodes := pg.nodes ++ [newId] }
            | none => st.groups
          some (.found newId false true, allNodes ++ [newId],
            { nodes := st.nodes ++ [synth], groups := groups1 })
        else none

/-- Strategy of engine.py lines 788-841: direct node matching.  Attribute
calls match same-token nodes outside the caller's file; bare calls match
same-token file-scope functions or constructors of classes with that name.
When nothing matched, a class group with the call's name resolves to its
(possibly synthesized implicit) constructor. -/
def stageDirect (c : Call) (nodeA : Nat) (allNodes : List Nat) (st : St) :
    FindRes × List Nat × St :=
  let possible :=
    if c.isAttr then
      let fgA := fileGroupOfNode st nodeA
      allNodes.filter (fun i =>
        (st.node i).token = c.token ∧ (st.node i).parent ≠ fgA)
    else
      allNodes.filter (fun i =>
        ((st.node i).token = c.token ∧ isFileScoped st i) ∨
        (parentTokenIs st i c.token ∧ (st.node i).is_constructor))
  match possible with
  | [n] => (.found n false false, allNodes, st)
  | n1 :: n2 :: rest => (.ambiguous (n1 :: n2 :: rest), allNodes, st)
  | [] =>
    match allNodes.findSome? (fun i =>
        match (st.node i).parent with
        | some p =>
          if (st.group p).group_type = .CLASS ∧ (st.group p).token = c.token
          then some p else none
        | none => none) with
    | some p =>
      let pg := st.group p
      match getConstructor st pg with
      | some ctor => (.found ctor false false, allNodes, st)
      | none =>
        let newId := st.nodes.length
        let synth : NodeRec :=
          { token := "__init__", parent := some p,
            is_constructor := true, implicit_constructor := true }
        (.found newId false false, allNodes ++ [newId],
          { nodes := st.nodes ++ [synth],
            groups := st.groups.set p { pg with nodes := pg.nodes ++ [newId] } })
    | none => (.nomatch, allNodes, st)

/-- Tail of the resolution chain from the direct-matching strategy on. -/
def findLinkFromFactory (c : Call) (nodeA : Nat) (allNodes : List Nat) (st : St) :
    FindRes × List Nat × St :=
  match stageFactory c allNodes st with
  | some r => r
  | none => stageDirect c nodeA allNodes st

/-- Tail of the resolution chain from the variable-based strategies on
(engine.py computes the visible variables once, at line 715). -/
def findLinkFromVars (c : Call) (nodeA : Nat) (allNodes : List Nat) (st : St) :
    FindRes × List Nat × St :=
  let vs := getVariables st nodeA c.line_number
  match stageLibVar c vs allNodes st with
  | some lib => (.found lib false false, allNodes, st)
  | none =>
    match stageVarMatch c vs allNodes st with
    | some r => (r, allNodes, st)
    | none => findLinkFromFactory c nodeA allNodes st

/-- Tail of the resolution chain from the library-signature strategy on. -/
def findLinkFromLibSig (heur : Bool) (c : Call) (nodeA : Nat) (allNodes : List Nat)
    (st : St) : FindRes × List Nat × St :=
  match findLibraryNodeBySignature c allNodes st with
  | some lib => (.found lib false false, allNodes, st)
  | none =>
    match stageUnknownSuper heur c nodeA st with
    | some r => (r, allNodes, st)
    | none => findLinkFromVars c nodeA allNodes st

/-- Tail of the resolution chain from the `self` strategy on. -/
def findLinkFromSelf (heur : Bool) (c : Call) (nodeA : Nat) (allNodes : List Nat)
    (st : St) : FindRes × List Nat × St :=
  match stageSelf heur c nodeA allNodes st with
  | some r => r
  | none => findLinkFromLibSig heur c nodeA allNodes st

/-- `_find_link_for_call` from engine.py: try the strategies in source
order — super dispatch, self dispatch, direct library signature,
unknown-owner-super, library instance via variable, variable matching,
factory return, direct node matching — returning the first result. -/
def findLinkForCall (heur : Bool) (c : Call) (nodeA : Nat) (allNodes : List Nat)
    (st : St) : FindRes × List Nat × St :=
  match stageSuper heur c nodeA st with
  | some r => (r, allNodes, st)
  | none => findLinkFromSelf heur c nodeA allNodes st

/-- The target of an edge: a node index, or (for variable-match results)
the raw binding object the engine linked to. -/
inductive Target where
  | node (n : Nat)
  | pt (p : PointsTo)
deriving DecidableEq, Repr, Inhabited

/-- `Edge` from model.py: caller node, callee target, optional label. -/
structure EdgeRec where
  node0 : Nat
  node1 : Target
  label : Option String := none
deriving DecidableEq, Repr, Inhabited

/-- The mutable state of the edge-building loop of `map_it` (engine.py
lines 1239-1402): the arena, the global node list, the edges and the
ambiguous calls gathered so far, the deduplication maps for NotFound
placeholders and synthesized library nodes, and the index of the NotFound
group.  Attaching library groups to file groups for display (engine.py
lines 1295-1308) is output bookkeeping and is not modelled. -/
structure AsmState where
  st : St
  allNodes : List Nat
  edges : List EdgeRec := []
  badCalls : List Call := []
  missingByKey : List (String × Nat) := []
  libNodesBySig : List (String × Nat) := []
  libGroupsByModule : List (String × Nat) := []
  missingGroup : Nat
deriving DecidableEq, Repr

/-- The NotFound group created by `map_it` before the edge loop
(engine.py line 1243). -/
def initialMissingGroup : GroupRec :=
  { token := "NotFound", group_type := .FILE }

/-- Engine.py lines 1311-1327: an unresolved non-builtin call is linked to
a placeholder node under the NotFound group, deduplicated by the call's
textual signature `call.to_string()`. -/
def resolveMissing (c : Call) (s : AsmState) : Target × AsmState :=
  let key := c.toStr
  match s.missingByKey.lookup key with
  | some n => (.node n, s)
  | none =>
    let newId := s.st.nodes.length
    let synth : NodeRec :=
      { token := c.token, parent := some s.missingGroup, missing := true }
    let mg := s.st.group s.missingGroup
    let st1 : St :=
      { nodes := s.st.nodes ++ [synth],
        groups := s.st.groups.set s.missingGroup
          { mg with nodes := mg.nodes ++ [newId] } }
    (.node newId,
      { s with st := st1, allNodes := s.allNodes ++ [newId],
               missingByKey := s.missingByKey ++ [(key, newId)] })

/-- Engine.py lines 1254-1293: an unresolved bare call whose token is a
builtin callable is linked to a synthesized (or reused) library node under
the `builtins` pseudo-module, keyed by the `builtins.token` signature. -/
def resolveBuiltin (c : Call) (s : AsmState) : Target × AsmState :=
  let sig := djoin "builtins" c.token
  let ensured : Nat × AsmState :=
    match s.libGroupsByModule.lookup "builtins" with
    | some g => (g, s)
    | none =>
      let newG := s.st.groups.length
      let grp : GroupRec :=
        { token := "builtins", group_type := .NAMESPACE,
          import_tokens := ["builtins"] }
      (newG,
        { s with st := { s.st with groups := s.st.groups ++ [grp] },
                 libGroupsByModule := s.libGroupsByModule ++ [("builtins", newG)] })
  let gid := ensured.1
  let s1 := ensured.2
  match s1.libNodesBySig.lookup sig with
  | some n => (.node n, s1)
  | none =>
    let newId := s1.st.nodes.length
    let lib : NodeRec :=
      { token := c.token, parent := some gid, import_tokens := [sig],
        line_number := some c.line_number, is_library := true }
    let g := s1.st.group gid
    (.node newId,
      { s1 with
        st := { nodes := s1.st.nodes ++ [lib],
                groups := s1.st.groups.set gid { g with nodes := g.nodes ++ [newId] } },
        libNodesBySig := s1.libNodesBySig ++ [(sig, newId)],
        allNodes := s1.allNodes ++ [newId] })

/-- The edge label computed by engine.py lines 1329-1397 when alias labels
are disabled: the initial `via super` assignment, the preserved `(via
super)` suffix, the `(via factory)` suffix, and the dict-dispatch text. -/
def edgeLabel (c : Call) (res : FindRes) : Option String :=
  let label0 : Option String := if res.viaSuper then some "via super" else none
  let label1 : Option String :=
    if res.viaSuper then
      match label0 with
      | some l => some (l ++ " (via super)")
      | none => some "via super"
    else label0
  let label2 : Option String :=
    if res.viaFactory then
      match label1 with
      | some l => some (l ++ " (via factory)")
      | none => some "via factory"
    else label1
  match c.indirect with
  | some (vn, k) =>
    let lab := "as " ++ vn ++ "[\x27" ++ k ++ "\x27]()"
    match label2 with
    | some l => some (l ++ " " ++ lab)
    | none => some lab
  | none => label2

/-- The body of the edge-building loop of `map_it` (engine.py lines
1247-1398, with alias labels disabled) for one resolved link: an ambiguous
call is recorded in `bad_calls`; a call without a resolved node is linked
to a builtins library node (bare builtin tokens) or to a NotFound
placeholder; then the edge is appended with its label. -/
def processLink (builtinNames : List String) (nodeA : Nat) (c : Call)
    (res : FindRes) (s : AsmState) : AsmState :=
  let s0 := match res with
    | .ambiguous _ => { s with badCalls := s.badCalls ++ [c] }
    | _ => s
  let resolved : Target × AsmState :=
    match res with
    | .found n _ _ => (.node n, s0)
    | .foundPt p => (.pt p, s0)
    | _ =>
      if c.owner_token = none ∧ c.token ∈ builtinNames then
        resolveBuiltin c s0
      else
        resolveMissing c s0
  let s1 := resolved.2
  { s1 with edges := s1.edges ++ [{ node0 := nodeA, node1 := resolved.1,
                                    label := edgeLabel c res }] }

/-- Engine.py lines 1405-1408: the ambiguous calls are reported once, as
the sorted deduplicated list of their textual signatures. -/
def badCallsStrings (bc : List Call) : List String :=
  ((bc.map Call.toStr).dedup).insertionSort (fun a b => a ≤ b)

/-- `SubsetParams` from engine.py. -/
structure SubsetParams where
  target_function : String
  upstream_depth : Int
  downstream_depth : Int
deriving DecidableEq, Repr

/-- Python truthiness of the `--target-function` argument. -/
def targetTruthy : Option String → Bool
  | none => false
  | some s => s ≠ ""

/-- `SubsetParams.generate` from engine.py: validate the subset arguments,
raising an assertion error (modelled as `.error`) on a depth without a
target, a target without a depth, or a negative depth. -/
def subsetParamsGenerate (t : Option String) (u d : Int) :
    Except String (Option SubsetParams) :=
  if u ≠ 0 ∧ targetTruthy t = false then
    .error "--upstream-depth requires --target-function"
  else if d ≠ 0 ∧ targetTruthy t = false then
    .error "--downstream-depth requires --target-function"
  else if targetTruthy t = false then
    .ok none
  else if ¬ (u ≠ 0 ∨ d ≠ 0) then
    .error "--target-function requires --upstream-depth or --downstream-depth"
  else if u < 0 then
    .error "--upstream-depth must be >= 0"
  else if d < 0 then
    .error "--downstream-depth must be >= 0"
  else
    .ok (some { target_function := t.getD "", upstream_depth := u,
                downstream_depth := d })

/-- Modelled from the spec: `Node.token_with_ownership` from model.py,
which is not under src/.  The `Class.method` form of a node name (a plain
token for file-level functions). -/
def tokenWithOwnership (st : St) (n : Nat) : String :=
  match (st.node n).parent with
  | some p =>
    if (st.group p).group_type = .CLASS then djoin (st.group p).token (st.node n).token
    else (st.node n).token
  | none => (st.node n).token

/-- Modelled from the spec: `Node.name` from model.py, which is not under
src/.  The `file::Class.method` form of a node name. -/
def nodeFullName (st : St) (n : Nat) : String :=
  match fileGroupOfNode st n with
  | some fg => (st.group fg).token ++ "::" ++ tokenWithOwnership st n
  | none => tokenWithOwnership st n

/-- The nodes matching the target identifier in any of its three forms:
bare token, `Class.method`, or `file::Class.method`. -/
def targetNodesFor (tf : String) (allNodes : List Nat) (st : St) : List Nat :=
  allNodes.filter (fun n =>
    (st.node n).token = tf ∨ tokenWithOwnership st n = tf ∨ nodeFullName st n = tf)

/-- `_find_target_node` from engine.py: zero or several matches raise an
assertion error. -/
def findTargetNode (tf : String) (allNodes : List Nat) (st : St) :
    Except String Nat :=
  match targetNodesFor tf allNodes st with
  | [] => .error ("Could not find node " ++ tf ++ " to build a subset.")
  | [n] => .ok n
  | _ :: _ :: _ => .error ("Found multiple nodes for " ++ tf ++ ".")

/-- The events of one `main` / `code2flow` run, in execution order:
`main` calls `SubsetParams.generate` (engine.py line 1841) before
`code2flow` parses via `map_it` (line 1649), and `_find_target_node` runs
inside `_filter_for_subset` (lines 1656-1658, via line 196) only after
parsing.  Parsing itself is abstracted: the parsed node list and arena are
parameters. -/
inductive PEvent where
  | subsetChecked
  | parsed
  | errorRaised (msg : String)
  | subsetFiltered
deriving DecidableEq, Repr

/-- The ordered event trace of a run, as far as subset validation, parsing
and target-node lookup are concerned. -/
def code2flowEvents (t : Option String) (u d : Int) (parsedNodes : List Nat)
    (st : St) : List PEvent :=
  match subsetParamsGenerate t u d with
  | .error m => [.errorRaised m]
  | .ok none => [.subsetChecked, .parsed]
  | .ok (some sp) =>
    match findTargetNode sp.target_function parsedNodes st with
    | .error m => [.subsetChecked, .parsed, .errorRaised m]
    | .ok _ => [.subsetChecked, .parsed, .subsetFiltered]

/-- The successors of a node under the downstream dictionary built by
`_filter_nodes_for_subset` (engine.py lines 199-201). -/
def downstreamOf (edges : List (Nat × Nat)) (n : Nat) : List Nat :=
  (edges.filter (fun e => e.1 = n)).map Prod.snd

/-- The predecessors of a node under the upstream dictionary. -/
def upstreamOf (edges : List (Nat × Nat)) (n : Nat) : List Nat :=
  (edges.filter (fun e => e.2 = n)).map Prod.fst

/-- One frontier image: the union of the adjacency sets of the frontier. -/
def frontierImage (adj : Nat → List Nat) (frontier : List Nat) : List Nat :=
  (frontier.map adj).flatten

/-- One direction of the breadth-first walk of `_filter_nodes_for_subset`
(engine.py lines 207-222): repeatedly replace the frontier by its image,
accumulating every visited frontier into the include set. -/
def expandLoop (adj : Nat → List Nat) : Nat → List Nat → List Nat → List Nat
  | 0, _, includeNodes => includeNodes
  | depth + 1, frontier, includeNodes =>
    let next := frontierImage adj frontier
    expandLoop adj depth next (includeNodes ++ next)

/-- `_filter_nodes_for_subset` from engine.py, for an already-identified
target node: the target, everything within `downstreamDepth` hops along
forward edges, and everything within `upstreamDepth` hops along reverse
edges. -/
def filterNodesForSubset (edges : List (Nat × Nat)) (target : Nat)
    (upstreamDepth downstreamDepth : Nat) : List Nat :=
  let afterDown := expandLoop (downstreamOf edges) downstreamDepth [target] [target]
  expandLoop (upstreamOf edges) upstreamDepth [target] afterDown

/-- `_filter_edges_for_subset` from engine.py: keep the edges whose both
endpoints survive. -/
def filterEdgesForSubset (includeNodes : List Nat) (edges : List (Nat × Nat)) :
    List (Nat × Nat) :=
  edges.filter (fun e => e.1 ∈ includeNodes ∧ e.2 ∈ includeNodes)

/-- A walk of at most `k` hops along the step relation `E` (the
specification's "reachable within k hops"). -/
inductive WithinHops (E : Nat → Nat → Prop) : Nat → Nat → Nat → Prop where
  | refl (x k) : WithinHops E x x k
  | step {x y z k} : E x y → WithinHops E y z k → WithinHops E x z (k + 1)

/-- A walk of exactly `j` hops along the step relation `E`. -/
def ExactHops (E : Nat → Nat → Prop) : Nat → Nat → Nat → Prop
  | 0, x, y => x = y
  | j + 1, x, y => ∃ z, E x z ∧ ExactHops E j z y

/-- The group forest on which `map_it` step 8 trims: each group owns node
indices and nested groups. -/
inductive GTree where
  | mk (nodes : List Nat) (subs : List GTree)

mutual

/-- All node indices of a group and its nested groups, in order
(`Group.all_nodes`). -/
def GTree.allNodes : GTree → List Nat
  | .mk ns subs => ns ++ allNodesList subs

/-- All node indices of a forest of groups. -/
def allNodesList : List GTree → List Nat
  | [] => []
  | g :: gs => g.allNodes ++ allNodesList gs

end

mutual

/-- The node-removal pass of trimming (engine.py lines 1446-1448): every
node without an incident edge is removed from its parent group. -/
def nodeTrimT (S : List Nat) : GTree → GTree
  | .mk ns subs => .mk (ns.filter (fun n => n ∈ S)) (nodeTrimList S subs)

/-- The node-removal pass over a forest of groups. -/
def nodeTrimList (S : List Nat) : List GTree → List GTree
  | [] => []
  | g :: gs => nodeTrimT S g :: nodeTrimList S gs

end

mutual

/-- The group-removal pass of trimming (engine.py lines 1450-1453): every
group whose `all_nodes` is empty is removed from its parent. -/
def pruneT : GTree → GTree
  | .mk ns subs => .mk ns (pruneList subs)

/-- The group-removal pass over a forest: a group whose `all_nodes` is
empty is dropped, the survivors are pruned recursively. -/
def pruneList : List GTree → List GTree
  | [] => []
  | g :: gs =>
    if g.allNodes.isEmpty then pruneList gs else pruneT g :: pruneList gs

end

/-- Step 8 of `map_it` (engine.py lines 1440-1456): compute the endpoint
set of the edges, drop every other node from the groups, drop emptied
groups, keep only file groups that still own nodes, and replace the node
list by the endpoint set.  The edges are returned unchanged. -/
def trimStep (edges : List (Nat × Nat)) (gs : List GTree) :
    List Nat × List (Nat × Nat) × List GTree :=
  let S := ((edges.map Prod.fst) ++ (edges.map Prod.snd)).dedup
  let gs1 := (gs.map (fun g => pruneT (nodeTrimT S g))).filter
    (fun g => ¬ g.allNodes.isEmpty)
  (S, edges, gs1)

/-- A value recorded in a scope mapping by python.py: a module-path string
(imports, class names) or a dict-literal mapping. -/
inductive ScopeVal where
  | str (s : String)
  | mapping (m : List (String × String))
deriving DecidableEq, Repr, Inhabited

/-- A scope stack as kept by python.py: outermost scope first here, so
Python's `reversed(scope_stack)` is an innermost-first scan of the
reversed list. -/
def scopeStackFind (stack : List (List (String × ScopeVal))) (name : String) :
    Option ScopeVal :=
  stack.reverse.findSome? (fun scope => scope.lookup name)

/-- The `ast.Name` case of `get_call_from_func_element` (python.py lines
78-95): a bare callee name whose innermost scope binding is a dotted
string becomes an attribute call on the module with `is_library` set; any
other binding (or none) yields a bare call carrying just the name. -/
def getCallFromName (id : String) (lineno : Nat)
    (scopeStack : Option (List (List (String × ScopeVal))))
    (argTokens : List String) : Call :=
  match scopeStack with
  | some stack =>
    match scopeStackFind stack id with
    | some (.str v) =>
      if containsDot v then
        { token := (rsplitDot v).2, owner_token := some (rsplitDot v).1,
          line_number := lineno, is_library := true, arg_tokens := argTokens }
      else
        { token := id, line_number := lineno, arg_tokens := argTokens }
    | some (.mapping _) =>
      { token := id, line_number := lineno, arg_tokens := argTokens }
    | none =>
      { token := id, line_number := lineno, arg_tokens := argTokens }
  | none =>
    { token := id, line_number := lineno, arg_tokens := argTokens }

/-- The parse step of `map_it` (engine.py lines 932-941): with heuristics
enabled, each source is parsed together with the transitive closure of its
local imports (`parse_file_recursive`); with heuristics disabled, only the
explicit file itself is parsed.  File input and output are abstracted into
the two parameter functions. -/
def parseFileGroups (heur : Bool) (sources : List Nat)
    (importClosure : Nat → List GTree) (parseSingle : Nat → GTree) :
    List GTree :=
  if heur then (sources.map importClosure).flatten
  else sources.map parseSingle

/-- The inheritance-resolution step of `map_it` (engine.py lines
988-1007): with heuristics enabled, each declared base-class name is
matched against the hierarchical subgroup keys by the last dotted
component and the matched node lists are concatenated; with heuristics
disabled, the inherited names are discarded outright. -/
def resolveGroupInherits (heur : Bool)
    (nodesBySubgroupToken : List (String × List Nat))
    (inhNames : List String) : List (List Nat) :=
  if heur then
    (inhNames.map (fun inh =>
      (nodesBySubgroupToken.filter
        (fun kv => lastComponent kv.1 = inh)).map Prod.snd)).flatten
  else []

/-! Concrete states used by counterexamples and witnesses. -/

/-- Example arena for `super()` dispatch: group 0 `Base` (class), group 1
`Derived` (class, inherits the node list of `Base`), group 2 the file;
node 0 `Base.m`, node 1 `Derived.m` whose body calls `super().m()`. -/
def exSuperCall : Call := { token := "m", owner_token := some "super", line_number := 3 }

/-- The `Derived(Base)` arena (see `exSuperCall`). -/
def exSuperSt : St :=
  { nodes :=
      [ { token := "m", parent := some 0 },
        { token := "m", parent := some 1, calls := [exSuperCall] } ],
    groups :=
      [ { token := "Base", group_type := .CLASS, parent := some 2, nodes := [0] },
        { token := "Derived", group_type := .CLASS, parent := some 2,
          nodes := [1], inherits := [[0]] },
        { token := "mod", group_type := .FILE, subgroups := [0, 1] } ] }

/-- Example arena for `self` dispatch where the enclosing class both
inherits a method `m` (node 0, defined on class `Base`, group 2) and
contains a nested class `m` (group 1) with an explicit constructor
(node 1): a call `self.m()` from node 2. -/
def exSelfNestedCall : Call := { token := "m", owner_token := some "self", line_number := 5 }

/-- The nested-class-versus-inheritance arena (see `exSelfNestedCall`). -/
def exSelfNestedSt : St :=
  { nodes :=
      [ { token := "m", parent := some 2 },
        { token := "__init__", parent := some 1, is_constructor := true },
        { token := "caller", parent := some 0, calls := [exSelfNestedCall] } ],
    groups :=
      [ { token := "C", group_type := .CLASS, parent := some 3, nodes := [2],
          subgroups := [1], inherits := [[0]] },
        { token := "m", group_type := .CLASS, parent := some 0, nodes := [1] },
        { token := "Base", group_type := .CLASS, parent := some 3, nodes := [0] },
        { token := "mod", group_type := .FILE, subgroups := [0, 2] } ] }

/-- Example arena for an ambiguous bare call: `f` is defined at file scope
in two different files (nodes 0 and 1); node 2 `g` calls `f()`. -/
def exAmbigCall : Call := { token := "f", line_number := 1 }

/-- The two-files-defining-`f` arena (see `exAmbigCall`).  Group 2 is the
NotFound group created before the edge loop. -/
def exAmbigSt : St :=
  { nodes :=
      [ { token := "f", parent := some 0 },
        { token := "f", parent := some 1 },
        { token := "g", parent := some 0, calls := [exAmbigCall] } ],
    groups :=
      [ { token := "fa", group_type := .FILE, nodes := [0, 2] },
        { token := "fb", group_type := .FILE, nodes := [1] },
        initialMissingGroup ] }

/-- The edge-loop state for `exAmbigSt` before processing any link. -/
def exAmbigAsm : AsmState :=
  { st := exAmbigSt, allNodes := [0, 1, 2], missingGroup := 2 }

/-- Example library attribute call `mod.f()` for the heuristics-disabled
counterexample: `f` is defined at file scope in files `mod` and `b`, so
direct name matching alone is ambiguous, while the library-signature
strategy picks the node in file `mod`. -/
def exLibCall : Call :=
  { token := "f", owner_token := some "mod", line_number := 1, is_library := true }

/-- The arena for `exLibCall`: caller node 0 in file `a`, `f` at file
scope in `mod` (node 1) and in `b` (node 2). -/
def exLibSt : St :=
  { nodes :=
      [ { token := "g", parent := some 0, calls := [exLibCall] },
        { token := "f", parent := some 1 },
        { token := "f", parent := some 2 } ],
    groups :=
      [ { token := "a", group_type := .FILE, nodes := [0] },
        { token := "mod", group_type := .FILE, nodes := [1] },
        { token := "b", group_type := .FILE, nodes := [2] } ] }

/-- Example call whose owner variable points to the unknown-module
sentinel: `m.f()` where the visible variable `m` records the sentinel,
while a node `f` exists in another file that direct matching would hit. -/
def exUnknownCall : Call := { token := "f", owner_token := some "m", line_number := 9 }

/-- The unknown-module arena (see `exUnknownCall`). -/
def exUnknownSt : St :=
  { nodes :=
      [ { token := "g", parent := some 0, calls := [exUnknownCall],
          vars := some [ { token := "m", points_to := .str UNKNOWN_MODULE,
                           line_number := 2 } ] },
        { token := "f", parent := some 1 } ],
    groups :=
      [ { token := "a", group_type := .FILE, nodes := [0] },
        { token := "b", group_type := .FILE, nodes := [1] } ] }

/-- An edge-loop state over an empty arena except for the NotFound group,
used to exercise placeholder synthesis. -/
def exMissingAsm : AsmState :=
  { st := { nodes := [], groups := [initialMissingGroup] },
    allNodes := [], missingGroup := 0 }

/-- The arena for the subset-target counterexample: one file `a` with one
function `f`. -/
def exC9St : St :=
  { nodes := [ { token := "f", parent := some 0 } ],
    groups := [ { token := "a", group_type := .FILE, nodes := [0] } ] }

/-! Reachability lemmas for the breadth-first subset walk. -/

/-- The frontier after `j` expansion rounds. -/
def iterImage (adj : Nat → List Nat) : Nat → List Nat → List Nat
  | 0, f => f
  | j + 1, f => iterImage adj j (frontierImage adj f)

theorem mem_frontierImage (adj : Nat → List Nat) (f : List Nat) (x : Nat) :
    x ∈ frontierImage adj f ↔ ∃ y ∈ f, x ∈ adj y := by
  simp [frontierImage]

theorem mem_expandLoop (adj : Nat → List Nat) (x : Nat) :
    ∀ (k : Nat) (f acc : List Nat),
      x ∈ expandLoop adj k f acc ↔
        x ∈ acc ∨ ∃ j, 1 ≤ j ∧ j ≤ k ∧ x ∈ iterImage adj j f := by
  intro k
  induction k with
  | zero =>
    intro f acc
    simp only [expandLoop]
    constructor
    · exact fun h => Or.inl h
    · rintro (h | ⟨j, h1, h2, _⟩)
      · exact h
      · omega
  | succ k ih =>
    intro f acc
    simp only [expandLoop]
    rw [ih]
    constructor
    · rintro (h | ⟨j, h1, h2, h3⟩)
      · rcases List.mem_append.mp h with h | h
        · exact Or.inl h
        · exact Or.inr ⟨1, le_refl 1, by omega, h⟩
      · exact Or.inr ⟨j + 1, by omega, by omega, h3⟩
    · rintro (h | ⟨j, h1, h2, h3⟩)
      · exact Or.inl (List.mem_append.mpr (Or.inl h))
      · match j, h1, h2, h3 with
        | 1, _, _, h3 =>
          exact Or.inl (List.mem_append.mpr (Or.inr h3))
        | j + 2, _, h2, h3 =>
          exact Or.inr ⟨j + 1, by omega, by omega, h3⟩

theorem mem_iterImage (adj : Nat → List Nat) (x : Nat) :
    ∀ (j : Nat) (f : List Nat),
      x ∈ iterImage adj j f ↔
        ∃ y ∈ f, ExactHops (fun a b => b ∈ adj a) j y x := by
  intro j
  induction j with
  | zero =>
    intro f
    simp [iterImage, ExactHops]
  | succ j ih =>
    intro f
    simp only [iterImage]
    rw [ih]
    constructor
    · rintro ⟨y, hy, he⟩
      rcases (mem_frontierImage adj f y).mp hy with ⟨z, hz, hzy⟩
      exact ⟨z, hz, y, hzy, he⟩
    · rintro ⟨z, hz, y, hzy, he⟩
      exact ⟨y, (mem_frontierImage adj f y).mpr ⟨z, hz, hzy⟩, he⟩

theorem exactHops_congr {E F : Nat → Nat → Prop} (h : ∀ a b, E a b ↔ F a b) :
    ∀ (j : Nat) (y x : Nat), ExactHops E j y x ↔ ExactHops F j y x := by
  intro j
  induction j with
  | zero => intro y x; simp [ExactHops]
  | succ j ih =>
    intro y x
    simp only [ExactHops]
    constructor
    · rintro ⟨z, hz, he⟩; exact ⟨z, (h y z).mp hz, (ih z x).mp he⟩
    · rintro ⟨z, hz, he⟩; exact ⟨z, (h y z).mpr hz, (ih z x).mpr he⟩

theorem mem_downstreamOf (edges : List (Nat × Nat)) (a b : Nat) :
    b ∈ downstreamOf edges a ↔ (a, b) ∈ edges := by
  simp only [downstreamOf, List.mem_map, List.mem_filter]
  constructor
  · rintro ⟨e, ⟨he, h1⟩, h2⟩
    have h1 : e.1 = a := by simpa using h1
    have : e = (a, b) := by
      cases e
      simp_all
    simpa [this] using he
  · intro h
    exact ⟨(a, b), ⟨h, by simp⟩, rfl⟩

theorem mem_upstreamOf (edges : List (Nat × Nat)) (a b : Nat) :
    b ∈ upstreamOf edges a ↔ (b, a) ∈ edges := by
  simp only [upstreamOf, List.mem_map, List.mem_filter]
  constructor
  · rintro ⟨e, ⟨he, h2⟩, h1⟩
    have h2 : e.2 = a := by simpa using h2
    have : e = (b, a) := by
      cases e
      simp_all
    simpa [this] using he
  · intro h
    exact ⟨(b, a), ⟨h, by simp⟩, rfl⟩

theorem exactHops_withinHops {E : Nat → Nat → Prop} :
    ∀ (j : Nat) (t x : Nat), ExactHops E j t x → ∀ k, j ≤ k → WithinHops E t x k := by
  intro j
  induction j with
  | zero =>
    intro t x he k _
    cases he
    exact .refl t k
  | succ j ih =>
    intro t x he k hk
    rcases he with ⟨z, hz, he⟩
    match k, hk with
    | k + 1, hk => exact .step hz (ih z x he k (by omega))

theorem withinHops_iff {E : Nat → Nat → Prop} (t x k : Nat) :
    WithinHops E t x k ↔ ∃ j, j ≤ k ∧ ExactHops E j t x := by
  constructor
  · intro h
    induction h with
    | refl y m => exact ⟨0, Nat.zero_le _, rfl⟩
    | step hE _ ih =>
      rcases ih with ⟨j, hj, he⟩
      exact ⟨j + 1, by omega, _, hE, he⟩
  · rintro ⟨j, hj, he⟩
    exact exactHops_withinHops j t x he k hj

theorem withinHops_split {E : Nat → Nat → Prop} (t x k : Nat) :
    WithinHops E t x k ↔ x = t ∨ ∃ j, 1 ≤ j ∧ j ≤ k ∧ ExactHops E j t x := by
  rw [withinHops_iff]
  constructor
  · rintro ⟨j, hj, he⟩
    match j, hj, he with
    | 0, _, he => exact Or.inl he.symm
    | j + 1, hj, he => exact Or.inr ⟨j + 1, by omega, hj, he⟩
  · rintro (rfl | ⟨j, h1, h2, he⟩)
    · exact ⟨0, Nat.zero_le _, rfl⟩
    · exact ⟨j, h2, he⟩

/-- C7.  Neighborhood extraction is a depth-bounded breadth-first walk:
the extracted node set is the union of the target, the nodes reachable
along reverse edges within `upstream_depth` hops and the nodes reachable
along forward edges within `downstream_depth` hops; the kept edges are
exactly those with both endpoints in that set; and on the chain
a → b → c → d with target c and both depths 1 the subset is exactly
b, c, d with edges b→c and c→d. -/
theorem claim_C7_subset_extraction :
    (∀ (edges : List (Nat × Nat)) (target upstreamDepth downstreamDepth x : Nat),
      x ∈ filterNodesForSubset edges target upstreamDepth downstreamDepth ↔
        WithinHops (fun a b => (a, b) ∈ edges) target x downstreamDepth ∨
        WithinHops (fun a b => (b, a) ∈ edges) target x upstreamDepth)
    ∧ (∀ (includeNodes : List Nat) (edges : List (Nat × Nat)) (e : Nat × Nat),
      e ∈ filterEdgesForSubset includeNodes edges ↔
        e ∈ edges ∧ e.1 ∈ includeNodes ∧ e.2 ∈ includeNodes)
    ∧ filterNodesForSubset [(0, 1), (1, 2), (2, 3)] 2 1 1 = [2, 3, 1]
    ∧ filterEdgesForSubset [2, 3, 1] [(0, 1), (1, 2), (2, 3)] = [(1, 2), (2, 3)] := by
  refine ⟨?_, ?_, by decide, by decide⟩
  · intro edges t u d x
    have hDown : ∀ j y, ExactHops (fun a b => b ∈ downstreamOf edges a) j t y ↔
        ExactHops (fun a b => (a, b) ∈ edges) j t y :=
      fun j y => exactHops_congr (fun a b => mem_downstreamOf edges a b) j t y
    have hUp : ∀ j y, ExactHops (fun a b => b ∈ upstreamOf edges a) j t y ↔
        ExactHops (fun a b => (b, a) ∈ edges) j t y :=
      fun j y => exactHops_congr (fun a b => mem_upstreamOf edges a b) j t y
    show x ∈ expandLoop (upstreamOf edges) u [t]
        (expandLoop (downstreamOf edges) d [t] [t]) ↔ _
    rw [mem_expandLoop, mem_expandLoop, withinHops_split, withinHops_split]
    simp only [mem_iterImage, List.mem_singleton, exists_eq_left, hDown, hUp]
    constructor
    · rintro (h | h)
      · exact Or.inl h
      · exact Or.inr (Or.inr h)
    · rintro (h | (h | h))
      · exact Or.inl h
      · exact Or.inl (Or.inl h)
      · exact Or.inr h
  · intro includeNodes edges e
    simp [filterEdgesForSubset, List.mem_filter, and_assoc]

/-- C10.  A call expression whose callee is a bare name that the scope
stack maps to a dotted string `module.attr` is extracted as a Call with
owner_token the module part, token the attribute part and is_library set;
a bare name with no such dotted binding is extracted as a Call carrying
only the name, with no owner token and is_library false. -/
theorem claim_C10_bare_name_extraction :
    (∀ (id : String) (ln : Nat) (stack : List (List (String × ScopeVal)))
        (ats : List String) (v modulePart attrPart : String),
      scopeStackFind stack id = some (.str v) →
      containsDot v = true →
      rsplitDot v = (modulePart, attrPart) →
      getCallFromName id ln (some stack) ats =
        { token := attrPart, owner_token := some modulePart, line_number := ln,
          is_library := true, arg_tokens := ats })
    ∧ (∀ (id : String) (ln : Nat) (stack : List (List (String × ScopeVal)))
        (ats : List String),
      (scopeStackFind stack id = none ∨
        (∃ v, scopeStackFind stack id = some (.str v) ∧ containsDot v = false) ∨
        (∃ m, scopeStackFind stack id = some (.mapping m))) →
      getCallFromName id ln (some stack) ats =
        { token := id, owner_token := none, line_number := ln,
          is_library := false, arg_tokens := ats }) := by
  constructor
  · intro id ln stack ats v modulePart attrPart hfind hdot hsplit
    simp [getCallFromName, hfind, hdot, hsplit]
  · rintro id ln stack ats (hfind | ⟨v, hfind, hdot⟩ | ⟨m, hfind⟩)
    · simp [getCallFromName, hfind]
    · simp [getCallFromName, hfind, hdot]
    · simp [getCallFromName, hfind]

/-- Witness for C10: the aliasing case `from x import y; y()` and the
plain-binding case evaluated at concrete inputs. -/
theorem claim_C10_witness :
    getCallFromName "y" 4 (some [[("y", .str "x.y")]]) [] =
      { token := "y", owner_token := some "x", line_number := 4,
        is_library := true, arg_tokens := [] }
    ∧ getCallFromName "z" 4 (some [[("z", .str "plain")]]) [] =
      { token := "z", owner_token := none, line_number := 4,
        is_library := false, arg_tokens := [] } :=
  ⟨claim_C10_bare_name_extraction.1 "y" 4 [[("y", .str "x.y")]] [] "x.y" "x" "y"
      (by decide) (by decide) (by decide),
    claim_C10_bare_name_extraction.2 "z" 4 [[("z", .str "plain")]] []
      (Or.inr (Or.inl ⟨"plain", by decide, by decide⟩))⟩

/-- C2.  With heuristics enabled, an attribute call owned by the literal
`super`, made from a node whose enclosing group is a class with a resolved
inheritance chain, resolves to the unique inheritance-chain method with
the call's token (marked via super, and the produced edge carries a
"via super" label); two or more matches make the call ambiguous; zero
matches fall through to the later strategies.  For Derived(Base) where
Derived.m calls super().m(), resolution targets Base.m. -/
theorem claim_C2_super_dispatch :
    (∀ (c : Call) (nodeA : Nat) (allNodes : List Nat) (st : St) (gid cand : Nat),
      c.isAttr = true → c.owner_token = some "super" →
      (st.node nodeA).parent = some gid →
      (st.group gid).group_type = .CLASS →
      superCandidates st (st.group gid) c.token = [cand] →
      findLinkForCall true c nodeA allNodes st =
        (.found cand true false, allNodes, st))
    ∧ (∀ (c : Call) (nodeA : Nat) (allNodes : List Nat) (st : St) (gid : Nat)
        (c1 c2 : Nat) (rest : List Nat),
      c.isAttr = true → c.owner_token = some "super" →
      (st.node nodeA).parent = some gid →
      (st.group gid).group_type = .CLASS →
      superCandidates st (st.group gid) c.token = c1 :: c2 :: rest →
      findLinkForCall true c nodeA allNodes st =
        (.ambiguous (c1 :: c2 :: rest), allNodes, st))
    ∧ (∀ (c : Call) (nodeA : Nat) (allNodes : List Nat) (st : St) (gid : Nat),
      c.isAttr = true → c.owner_token = some "super" →
      (st.node nodeA).parent = some gid →
      (st.group gid).group_type = .CLASS →
      superCandidates st (st.group gid) c.token = [] →
      findLinkForCall true c nodeA allNodes st =
        findLinkFromSelf true c nodeA allNodes st)
    ∧ (∀ (bn : List String) (nodeA cand : Nat) (c : Call) (s : AsmState),
      c.indirect = none →
      ∃ lbl, (processLink bn nodeA c (.found cand true false) s).edges =
          s.edges ++ [{ node0 := nodeA, node1 := .node cand, label := some lbl }]
        ∧ ∃ pre post, lbl = pre ++ "via super" ++ post)
    ∧ (findLinkForCall true exSuperCall 1 [0, 1] exSuperSt =
        (.found 0 true false, [0, 1], exSuperSt)
      ∧ (exSuperSt.node 0).parent = some 0 ∧ (exSuperSt.group 0).token = "Base"
      ∧ (exSuperSt.group 1).token = "Derived"
      ∧ (exSuperSt.group 1).inherits = [[0]]) := by
  refine ⟨?_, ?_, ?_, ?_, by decide⟩
  · intro c nodeA allNodes st gid cand h1 h2 h3 h4 h5
    simp [findLinkForCall, stageSuper, h1, h2, h3, h4, h5]
  · intro c nodeA allNodes st gid c1 c2 rest h1 h2 h3 h4 h5
    simp [findLinkForCall, stageSuper, h1, h2, h3, h4, h5]
  · intro c nodeA allNodes st gid h1 h2 h3 h4 h5
    simp [findLinkForCall, stageSuper, h1, h2, h3, h4, h5]
  · intro bn nodeA cand c s hind
    refine ⟨"via super" ++ " (via super)", ?_, "", " (via super)", by decide⟩
    simp [processLink, edgeLabel, FindRes.viaSuper, FindRes.viaFactory, hind]

/-- Witness for C2: unique-match dispatch applied to the Derived(Base)
arena, and the edge-label conjunct applied at a concrete state. -/
theorem claim_C2_witness :
    findLinkForCall true exSuperCall 1 [0, 1] exSuperSt =
      (.found 0 true false, [0, 1], exSuperSt)
    ∧ ∃ lbl, (processLink [] 1 exSuperCall (.found 0 true false) exMissingAsm).edges =
        exMissingAsm.edges ++
          [{ node0 := 1, node1 := .node 0, label := some lbl }]
      ∧ ∃ pre post, lbl = pre ++ "via super" ++ post :=
  ⟨claim_C2_super_dispatch.1 exSuperCall 1 [0, 1] exSuperSt 1 0
      (by decide) (by decide) (by decide) (by decide) (by decide),
    claim_C2_super_dispatch.2.2.2.1 [] 1 0 exSuperCall exMissingAsm rfl⟩

/-- Counterexample to C3 as stated: in `exSelfNestedSt` the enclosing
class both inherits a method `m` (node 0; the inheritance chain has
exactly one candidate) and contains a nested class `m` with an explicit
constructor (node 1).  The claim's order — (b) the inheritance chain
before (c) the nested class, with an earlier match preempting later
stages — would resolve `self.m()` to node 0, but the code resolves it to
the nested class's constructor node 1. -/
theorem claim_C3_counterexample :
    superCandidates exSelfNestedSt (exSelfNestedSt.group 0) "m" = [0]
    ∧ (exSelfNestedSt.group 0).nodes.filter
        (fun i => (exSelfNestedSt.node i).token = "m") = []
    ∧ findLinkForCall true exSelfNestedCall 2 [0, 1, 2] exSelfNestedSt =
        (.found 1 false false, [0, 1, 2], exSelfNestedSt)
    ∧ (exSelfNestedSt.node 1).parent = some 1
    ∧ (exSelfNestedSt.group 1).token = "m"
    ∧ (exSelfNestedSt.node 1).is_constructor = true
    ∧ findLinkForCall true exSelfNestedCall 2 [0, 1, 2] exSelfNestedSt ≠
        (.found 0 false false, [0, 1, 2], exSelfNestedSt) := by
  decide

/-- C3 as amended.  With heuristics enabled, `self.token()` resolution
from a method of a class proceeds: (a) methods defined directly on the
enclosing class (a unique match wins outright, several are ambiguous);
otherwise inheritance-chain candidates are collected, but (c) a nested
class of the enclosing class whose token matches resolves to that nested
class's constructor first — synthesizing an implicit constructor node
(flagged implicit_constructor, registered in the subgroup and the global
node list) when none is defined — and only when no nested class matches
does (b) the inheritance chain decide (unique match wins, several are
ambiguous, none falls through to later strategies). -/
theorem claim_C3_self_dispatch :
    (∀ (c : Call) (nodeA : Nat) (allNodes : List Nat) (st : St) (gid cand : Nat),
      c.isAttr = true → c.owner_token = some "self" →
      (st.node nodeA).parent = some gid →
      (st.group gid).group_type = .CLASS →
      (st.group gid).nodes.filter (fun i => (st.node i).token = c.token) = [cand] →
      findLinkForCall true c nodeA allNodes st =
        (.found cand false false, allNodes, st))
    ∧ (∀ (c : Call) (nodeA : Nat) (allNodes : List Nat) (st : St) (gid : Nat)
        (c1 c2 : Nat) (rest : List Nat),
      c.isAttr = true → c.owner_token = some "self" →
      (st.node nodeA).parent = some gid →
      (st.group gid).group_type = .CLASS →
      (st.group gid).nodes.filter (fun i => (st.node i).token = c.token) =
        c1 :: c2 :: rest →
      findLinkForCall true c nodeA allNodes st =
        (.ambiguous (c1 :: c2 :: rest), allNodes, st))
    ∧ (∀ (c : Call) (nodeA : Nat) (allNodes : List Nat) (st : St) (gid sgid ctor : Nat),
      c.isAttr = true → c.owner_token = some "self" →
      (st.node nodeA).parent = some gid →
      (st.group gid).group_type = .CLASS →
      (st.group gid).nodes.filter (fun i => (st.node i).token = c.token) = [] →
      (st.group gid).subgroups.find? (fun s => (st.group s).token = c.token) = some sgid →
      getConstructor st (st.group sgid) = some ctor →
      findLinkForCall true c nodeA allNodes st =
        (.found ctor false false, allNodes, st))
    ∧ (∀ (c : Call) (nodeA : Nat) (allNodes : List Nat) (st : St) (gid sgid : Nat),
      c.isAttr = true → c.owner_token = some "self" →
      (st.node nodeA).parent = some gid →
      (st.group gid).group_type = .CLASS →
      (st.group gid).nodes.filter (fun i => (st.node i).token = c.token) = [] →
      (st.group gid).subgroups.find? (fun s => (st.group s).token = c.token) = some sgid →
      getConstructor st (st.group sgid) = none →
      findLinkForCall true c nodeA allNodes st =
        (.found st.nodes.length false false, allNodes ++ [st.nodes.length],
          { nodes := st.nodes ++
              [{ token := "__init__", parent := some sgid,
                 is_constructor := true, implicit_constructor := true }],
            groups := st.groups.set sgid
              { st.group sgid with
                nodes := (st.group sgid).nodes ++ [st.nodes.length] } }))
    ∧ (∀ (c : Call) (nodeA : Nat) (allNodes : List Nat) (st : St) (gid cand : Nat),
      c.isAttr = true → c.owner_token = some "self" →
      (st.node nodeA).parent = some gid →
      (st.group gid).group_type = .CLASS →
      (st.group gid).nodes.filter (fun i => (st.node i).token = c.token) = [] →
      (st.group gid).subgroups.find? (fun s => (st.group s).token = c.token) = none →
      superCandidates st (st.group gid) c.token = [cand] →
      findLinkForCall true c nodeA allNodes st =
        (.found cand false false, allNodes, st))
    ∧ (∀ (c : Call) (nodeA : Nat) (allNodes : List Nat) (st : St) (gid : Nat)
        (c1 c2 : Nat) (rest : List Nat),
      c.isAttr = true → c.owner_token = some "self" →
      (st.node nodeA).parent = some gid →
      (st.group gid).group_type = .CLASS →
      (st.group gid).nodes.filter (fun i => (st.node i).token = c.token) = [] →
      (st.group gid).subgroups.find? (fun s => (st.group s).token = c.token) = none →
      superCandidates st (st.group gid) c.token = c1 :: c2 :: rest →
      findLinkForCall true c nodeA allNodes st =
        (.ambiguous (c1 :: c2 :: rest), allNodes, st))
    ∧ (∀ (c : Call) (nodeA : Nat) (allNodes : List Nat) (st : St) (gid : Nat),
      c.isAttr = true → c.owner_token = some "self" →
      (st.node nodeA).parent = some gid →
      (st.group gid).group_type = .CLASS →
      (st.group gid).nodes.filter (fun i => (st.node i).token = c.token) = [] →
      (st.group gid).subgroups.find? (fun s => (st.group s).token = c.token) = none →
      superCandidates st (st.group gid) c.token = [] →
      findLinkForCall true c nodeA allNodes st =
        findLinkFromLibSig true c nodeA allNodes st) := by
  refine ⟨?_, ?_, ?_, ?_, ?_, ?_, ?_⟩
  · intro c nodeA allNodes st gid cand h1 h2 h3 h4 h5
    simp [findLinkForCall, stageSuper, findLinkFromSelf, stageSelf, h1, h2, h3, h4, h5]
  · intro c nodeA allNodes st gid c1 c2 rest h1 h2 h3 h4 h5
    simp [findLinkForCall, stageSuper, findLinkFromSelf, stageSelf, h1, h2, h3, h4, h5]
  · intro c nodeA allNodes st gid sgid ctor h1 h2 h3 h4 h5 h6 h7
    simp [findLinkForCall, stageSuper, findLinkFromSelf, stageSelf,
      h1, h2, h3, h4, h5, h6, h7]
  · intro c nodeA allNodes st gid sgid h1 h2 h3 h4 h5 h6 h7
    simp [findLinkForCall, stageSuper, findLinkFromSelf, stageSelf,
      h1, h2, h3, h4, h5, h6, h7]
  · intro c nodeA allNodes st gid cand h1 h2 h3 h4 h5 h6 h7
    simp [findLinkForCall, stageSuper, findLinkFromSelf, stageSelf,
      h1, h2, h3, h4, h5, h6, h7]
  · intro c nodeA allNodes st gid c1 c2 rest h1 h2 h3 h4 h5 h6 h7
    simp [findLinkForCall, stageSuper, findLinkFromSelf, stageSelf,
      h1, h2, h3, h4, h5, h6, h7]
  · intro c nodeA allNodes st gid h1 h2 h3 h4 h5 h6 h7
    simp [findLinkForCall, stageSuper, findLinkFromSelf, stageSelf,
      h1, h2, h3, h4, h5, h6, h7]

/-- Witness for C3 as amended: the nested-class-preemption conjunct
applied to the `exSelfNestedSt` arena, where the inheritance chain also
holds a candidate yet the nested constructor wins. -/
theorem claim_C3_witness :
    findLinkForCall true exSelfNestedCall 2 [0, 1, 2] exSelfNestedSt =
      (.found 1 false false, [0, 1, 2], exSelfNestedSt) :=
  claim_C3_self_dispatch.2.2.1 exSelfNestedCall 2 [0, 1, 2] exSelfNestedSt 0 1 1
    (by decide) (by decide) (by decide) (by decide) (by decide) (by decide) (by decide)

/-- `findSome?` skips a segment on which the function yields nothing. -/
theorem findSome?_append_of_none {α β : Type} (l1 l2 : List α) (f : α → Option β)
    (h : ∀ a ∈ l1, f a = none) : (l1 ++ l2).findSome? f = l2.findSome? f := by
  induction l1 with
  | nil => simp
  | cons a l ih =>
    rw [List.cons_append, List.findSome?_cons, h a (List.mem_cons_self a l)]
    exact ih (fun b hb => h b (List.mem_cons_of_mem a hb))

/-- The loop body of variable matching yields nothing on a variable with
no truthy structural match. -/
theorem varMatchBody_none (c : Call) (allNodes : List Nat) (st : St)
    (v : Variable)
    (h : matchesVariable c v = none ∨
      ∃ pt, matchesVariable c v = some pt ∧ pt.truthy = false) :
    varMatchBody c allNodes st v = none := by
  rcases h with h | ⟨pt, h, htr⟩
  · simp [varMatchBody, h]
  · simp [varMatchBody, h, htr]

/-- C4.  In general variable-match resolution, the first visible variable
whose token structurally matches the call's owner decides.  If its
recorded binding is the unknown-module sentinel, the whole call resolves
to no match — no lower-priority strategy (factory or direct name
matching) is consulted.  Otherwise the block prefers a library-signature
match when one exists, else it returns the variable's binding directly;
in the full chain the library-signature search has already been tried (and
failed) before this strategy runs, so there the binding is returned. -/
theorem claim_C4_variable_match :
    (∀ (c : Call) (allNodes : List Nat) (st : St) (vs0 rest : List Variable)
        (v : Variable) (pt : PointsTo),
      (∀ v2 ∈ vs0, matchesVariable c v2 = none ∨
        ∃ pt2, matchesVariable c v2 = some pt2 ∧ pt2.truthy = false) →
      matchesVariable c v = some pt → pt.truthy = true →
      pt = .str UNKNOWN_MODULE →
      stageVarMatch c (vs0 ++ v :: rest) allNodes st = some .nomatch)
    ∧ (∀ (c : Call) (allNodes : List Nat) (st : St) (vs0 rest : List Variable)
        (v : Variable) (pt : PointsTo) (lib : Nat),
      (∀ v2 ∈ vs0, matchesVariable c v2 = none ∨
        ∃ pt2, matchesVariable c v2 = some pt2 ∧ pt2.truthy = false) →
      matchesVariable c v = some pt → pt.truthy = true →
      pt ≠ .str UNKNOWN_MODULE →
      findLibraryNodeBySignature c allNodes st = some lib →
      stageVarMatch c (vs0 ++ v :: rest) allNodes st =
        some (.found lib false false))
    ∧ (∀ (c : Call) (allNodes : List Nat) (st : St) (vs0 rest : List Variable)
        (v : Variable) (pt : PointsTo),
      (∀ v2 ∈ vs0, matchesVariable c v2 = none ∨
        ∃ pt2, matchesVariable c v2 = some pt2 ∧ pt2.truthy = false) →
      matchesVariable c v = some pt → pt.truthy = true →
      pt ≠ .str UNKNOWN_MODULE →
      findLibraryNodeBySignature c allNodes st = none →
      stageVarMatch c (vs0 ++ v :: rest) allNodes st = some (.foundPt pt))
    ∧ (∀ (c : Call) (nodeA : Nat) (allNodes : List Nat) (st : St)
        (vs0 rest : List Variable) (v : Variable) (pt : PointsTo),
      stageSuper true c nodeA st = none →
      stageSelf true c nodeA allNodes st = none →
      findLibraryNodeBySignature c allNodes st = none →
      stageUnknownSuper true c nodeA st = none →
      stageLibVar c (getVariables st nodeA c.line_number) allNodes st = none →
      getVariables st nodeA c.line_number = vs0 ++ v :: rest →
      (∀ v2 ∈ vs0, matchesVariable c v2 = none ∨
        ∃ pt2, matchesVariable c v2 = some pt2 ∧ pt2.truthy = false) →
      matchesVariable c v = some pt → pt.truthy = true →
      pt = .str UNKNOWN_MODULE →
      findLinkForCall true c nodeA allNodes st = (.nomatch, allNodes, st))
    ∧ (∀ (c : Call) (nodeA : Nat) (allNodes : List Nat) (st : St)
        (vs0 rest : List Variable) (v : Variable) (pt : PointsTo),
      stageSuper true c nodeA st = none →
      stageSelf true c nodeA allNodes st = none →
      findLibraryNodeBySignature c allNodes st = none →
      stageUnknownSuper true c nodeA st = none →
      stageLibVar c (getVariables st nodeA c.line_number) allNodes st = none →
      getVariables st nodeA c.line_number = vs0 ++ v :: rest →
      (∀ v2 ∈ vs0, matchesVariable c v2 = none ∨
        ∃ pt2, matchesVariable c v2 = some pt2 ∧ pt2.truthy = false) →
      matchesVariable c v = some pt → pt.truthy = true →
      pt ≠ .str UNKNOWN_MODULE →
      findLinkForCall true c nodeA allNodes st = (.foundPt pt, allNodes, st)) := by
  have core : ∀ (c : Call) (allNodes : List Nat) (st : St)
      (vs0 rest : List Variable) (v : Variable) (pt : PointsTo),
      (∀ v2 ∈ vs0, matchesVariable c v2 = none ∨
        ∃ pt2, matchesVariable c v2 = some pt2 ∧ pt2.truthy = false) →
      matchesVariable c v = some pt → pt.truthy = true →
      stageVarMatch c (vs0 ++ v :: rest) allNodes st =
        (if pt = .str UNKNOWN_MODULE then some .nomatch
         else match findLibraryNodeBySignature c allNodes st with
           | some lib => some (.found lib false false)
           | none => some (.foundPt pt)) := by
    intro c allNodes st vs0 rest v pt h0 hv htr
    rw [stageVarMatch, findSome?_append_of_none _ _ _
      (fun v2 hv2 => varMatchBody_none c allNodes st v2 (h0 v2 hv2))]
    rw [List.findSome?_cons]
    by_cases hs : pt = .str UNKNOWN_MODULE
    · simp [varMatchBody, hv, htr, hs, PointsTo.truthy, UNKNOWN_MODULE]
    · cases hlib : findLibraryNodeBySignature c allNodes st with
      | some lib => simp [varMatchBody, hv, htr, hs, hlib]
      | none => simp [varMatchBody, hv, htr, hs, hlib]
  refine ⟨?_, ?_, ?_, ?_, ?_⟩
  · intro c allNodes st vs0 rest v pt h0 hv htr hs
    rw [core c allNodes st vs0 rest v pt h0 hv htr, if_pos hs]
  · intro c allNodes st vs0 rest v pt lib h0 hv htr hs hlib
    rw [core c allNodes st vs0 rest v pt h0 hv htr, if_neg hs, hlib]
  · intro c allNodes st vs0 rest v pt h0 hv htr hs hlib
    rw [core c allNodes st vs0 rest v pt h0 hv htr, if_neg hs, hlib]
  · intro c nodeA allNodes st vs0 rest v pt hsu hse hlib hun hlv hvs h0 hv htr hs
    have hvm := core c allNodes st vs0 rest v pt h0 hv htr
    rw [if_pos hs] at hvm
    rw [hvs] at hlv
    simp [findLinkForCall, hsu, findLinkFromSelf, hse, findLinkFromLibSig, hlib,
      hun, findLinkFromVars, hlv, hvs, hvm]
  · intro c nodeA allNodes st vs0 rest v pt hsu hse hlib hun hlv hvs h0 hv htr hs
    have hvm := core c allNodes st vs0 rest v pt h0 hv htr
    rw [if_neg hs, hlib] at hvm
    rw [hvs] at hlv
    simp [findLinkForCall, hsu, findLinkFromSelf, hse, findLinkFromLibSig, hlib,
      hun, findLinkFromVars, hlv, hvs, hvm]

/-- Witness for C4: in `exUnknownSt` the visible variable `m` records the
unknown-module sentinel, so `m.f()` resolves to no match for the whole
call even though direct name matching alone would have found the node `f`
of the other file. -/
theorem claim_C4_witness :
    findLinkForCall true exUnknownCall 0 [0, 1] exUnknownSt =
      (.nomatch, [0, 1], exUnknownSt)
    ∧ stageDirect exUnknownCall 0 [0, 1] exUnknownSt =
      (.found 1 false false, [0, 1], exUnknownSt) :=
  ⟨claim_C4_variable_match.2.2.2.1 exUnknownCall 0 [0, 1] exUnknownSt []
      [] { token := "m", points_to := .str UNKNOWN_MODULE, line_number := 2 }
      (.str UNKNOWN_MODULE)
      (by decide) (by decide) (by decide) (by decide) (by decide)
      (by decide) (fun v2 hv2 => absurd hv2 (by simp)) (by decide) (by decide)
      (by decide),
    by decide⟩

/-- Counterexample to C5 as stated: with heuristics disabled the call
`mod.f()` of `exLibSt` is still resolved by the library-signature
strategy (to the `f` of file `mod`), although direct literal name matching
alone would leave it ambiguous between the two `f` definitions — so
resolution strategies beyond direct literal name matching do run when the
toggle is off. -/
theorem claim_C5_counterexample :
    findLinkForCall false exLibCall 0 [0, 1, 2] exLibSt =
      (.found 1 false false, [0, 1, 2], exLibSt)
    ∧ stageDirect exLibCall 0 [0, 1, 2] exLibSt =
      (.ambiguous [1, 2], [0, 1, 2], exLibSt)
    ∧ findLinkForCall false exLibCall 0 [0, 1, 2] exLibSt ≠
        stageDirect exLibCall 0 [0, 1, 2] exLibSt := by
  decide

/-- C5 as amended.  Disabling the heuristics toggle disables the
inheritance-aware lookups (super dispatch, self dispatch and the
unknown-owner-super guess all yield nothing), restricts parsing to the
explicitly provided files (no import following), and discards inheritance
resolution — but the library-signature, variable-binding and factory
strategies are not gated and still run, as the concrete conjunct shows. -/
theorem claim_C5_heuristics_toggle :
    (∀ (c : Call) (nodeA : Nat) (st : St), stageSuper false c nodeA st = none)
    ∧ (∀ (c : Call) (nodeA : Nat) (allNodes : List Nat) (st : St),
      stageSelf false c nodeA allNodes st = none)
    ∧ (∀ (c : Call) (nodeA : Nat) (st : St),
      stageUnknownSuper false c nodeA st = none)
    ∧ (∀ (sources : List Nat) (importClosure : Nat → List GTree)
        (parseSingle : Nat → GTree),
      parseFileGroups false sources importClosure parseSingle =
        sources.map parseSingle)
    ∧ (∀ (m : List (String × List Nat)) (inh : List String),
      resolveGroupInherits false m inh = [])
    ∧ (findLinkForCall false exLibCall 0 [0, 1, 2] exLibSt =
        (.found 1 false false, [0, 1, 2], exLibSt)
      ∧ findLibraryNodeBySignature exLibCall [0, 1, 2] exLibSt = some 1
      ∧ stageDirect exLibCall 0 [0, 1, 2] exLibSt =
        (.ambiguous [1, 2], [0, 1, 2], exLibSt)) := by
  refine ⟨?_, ?_, ?_, ?_, ?_, by decide⟩
  · intro c nodeA st
    simp [stageSuper]
  · intro c nodeA allNodes st
    simp [stageSelf]
  · intro c nodeA st
    simp [stageUnknownSuper]
  · intro sources importClosure parseSingle
    simp [parseFileGroups]
  · intro m inh
    simp [resolveGroupInherits]

/-- A successful association-list lookup comes from a recorded pair. -/
theorem lookup_mem_of_some {α β : Type} [BEq α] :
    ∀ (l : List (α × β)) (k : α) (b : β), l.lookup k = some b → ∃ a, (a, b) ∈ l := by
  intro l
  induction l with
  | nil => intro k b h; simp [List.lookup] at h
  | cons p l ih =>
    intro k b h
    cases p with
    | mk ka vb =>
      by_cases hk : k == ka
      · simp [List.lookup, hk] at h
        exact ⟨ka, by simp [h]⟩
      · simp [List.lookup, hk] at h
        rcases ih k b h with ⟨a, ha⟩
        exact ⟨a, List.mem_cons_of_mem _ ha⟩

/-- The NotFound branch of the edge loop always links to a node that is
flagged missing, without touching the bad-call list or the edges. -/
theorem resolveMissing_target (c : Call) (s : AsmState)
    (hmw : ∀ p ∈ s.missingByKey, p.2 < s.st.nodes.length ∧
      (s.st.node p.2).missing = true) :
    ∃ n, (resolveMissing c s).1 = Target.node n ∧
      ((resolveMissing c s).2.st.node n).missing = true ∧
      (resolveMissing c s).2.badCalls = s.badCalls ∧
      (resolveMissing c s).2.edges = s.edges := by
  cases hl : s.missingByKey.lookup c.toStr with
  | some n =>
    rcases lookup_mem_of_some _ _ _ hl with ⟨a, ha⟩
    refine ⟨n, ?_, ?_, ?_, ?_⟩ <;> simp [resolveMissing, hl, (hmw (a, n) ha).2]
  | none =>
    refine ⟨s.st.nodes.length, ?_, ?_, ?_, ?_⟩ <;>
      simp [resolveMissing, hl, St.node, List.getD_append_right]

/-- The builtins branch of the edge loop always links to a node that is
flagged as a library node, without touching the bad-call list or the
edges. -/
theorem resolveBuiltin_target (c : Call) (s : AsmState)
    (hlw : ∀ p ∈ s.libNodesBySig, p.2 < s.st.nodes.length ∧
      (s.st.node p.2).is_library = true) :
    ∃ n, (resolveBuiltin c s).1 = Target.node n ∧
      ((resolveBuiltin c s).2.st.node n).is_library = true ∧
      (resolveBuiltin c s).2.badCalls = s.badCalls ∧
      (resolveBuiltin c s).2.edges = s.edges := by
  cases hg : s.libGroupsByModule.lookup "builtins" with
  | some g =>
    cases hn : s.libNodesBySig.lookup (djoin "builtins" c.token) with
    | some n =>
      rcases lookup_mem_of_some _ _ _ hn with ⟨a, ha⟩
      refine ⟨n, ?_, ?_, ?_, ?_⟩ <;> simp [resolveBuiltin, hg, hn, (hlw (a, n) ha).2]
    | none =>
      refine ⟨s.st.nodes.length, ?_, ?_, ?_, ?_⟩ <;>
        simp [resolveBuiltin, hg, hn, St.node, List.getD_append_right]
  | none =>
    cases hn : s.libNodesBySig.lookup (djoin "builtins" c.token) with
    | some n =>
      rcases lookup_mem_of_some _ _ _ hn with ⟨a, ha⟩
      have hL := (hlw (a, n) ha).2
      simp only [St.node, List.getD_eq_getElem?_getD] at hL
      refine ⟨n, ?_, ?_, ?_, ?_⟩ <;> simp [resolveBuiltin, hg, hn, St.node, hL]
    | none =>
      refine ⟨s.st.nodes.length, ?_, ?_, ?_, ?_⟩ <;>
        simp [resolveBuiltin, hg, hn, St.node, List.getD_append_right]

/-- Counterexample to C1 as stated: the bare call `f()` of `exAmbigSt`
matches two file-scope definitions and is returned as ambiguous, yet the
edge loop of `map_it` still produces an edge for it — to the freshly
synthesized NotFound placeholder (node 3) — where the claim requires that
no edge be produced. -/
theorem claim_C1_counterexample :
    findLinkForCall true exAmbigCall 2 [0, 1, 2] exAmbigSt =
      (.ambiguous [0, 1], [0, 1, 2], exAmbigSt)
    ∧ (processLink [] 2 exAmbigCall (.ambiguous [0, 1]) exAmbigAsm).edges =
      [{ node0 := 2, node1 := .node 3, label := none }]
    ∧ ((processLink [] 2 exAmbigCall (.ambiguous [0, 1]) exAmbigAsm).st.node 3).missing
      = true
    ∧ (processLink [] 2 exAmbigCall (.ambiguous [0, 1]) exAmbigAsm).edges ≠ [] := by
  decide

/-- C1 as amended.  Whenever a strategy yields two or more equally-ranked
candidates, resolution for the call halts at that strategy (no
lower-priority strategy is tried) and the call is returned as ambiguous;
`map_it` records it in the bad-call list, reports the calls once as the
sorted deduplicated list of textual signatures, and produces no edge to
any candidate — instead it materializes an edge to a synthesized
placeholder (a NotFound node flagged missing, or a builtins library node
for bare builtin tokens). -/
theorem claim_C1_ambiguity_handling :
    (∀ (heur : Bool) (c : Call) (nodeA : Nat) (allNodes : List Nat) (st : St)
        (cs : List Nat),
      stageSuper heur c nodeA st = some (.ambiguous cs) →
      findLinkForCall heur c nodeA allNodes st = (.ambiguous cs, allNodes, st))
    ∧ (∀ (heur : Bool) (c : Call) (nodeA : Nat) (allNodes : List Nat) (st : St)
        (cs : List Nat) (ns2 : List Nat) (st2 : St),
      stageSuper heur c nodeA st = none →
      stageSelf heur c nodeA allNodes st = some (.ambiguous cs, ns2, st2) →
      findLinkForCall heur c nodeA allNodes st = (.ambiguous cs, ns2, st2))
    ∧ (∀ (heur : Bool) (c : Call) (nodeA : Nat) (allNodes : List Nat) (st : St)
        (cs : List Nat),
      stageSuper heur c nodeA st = none →
      stageSelf heur c nodeA allNodes st = none →
      findLibraryNodeBySignature c allNodes st = none →
      stageUnknownSuper heur c nodeA st = some (.ambiguous cs) →
      findLinkForCall heur c nodeA allNodes st = (.ambiguous cs, allNodes, st))
    ∧ (∀ (heur : Bool) (c : Call) (nodeA : Nat) (allNodes : List Nat) (st : St)
        (cs : List Nat) (ns2 : List Nat) (st2 : St),
      stageSuper heur c nodeA st = none →
      stageSelf heur c nodeA allNodes st = none →
      findLibraryNodeBySignature c allNodes st = none →
      stageUnknownSuper heur c nodeA st = none →
      stageLibVar c (getVariables st nodeA c.line_number) allNodes st = none →
      stageVarMatch c (getVariables st nodeA c.line_number) allNodes st = none →
      stageFactory c allNodes st = none →
      stageDirect c nodeA allNodes st = (.ambiguous cs, ns2, st2) →
      findLinkForCall heur c nodeA allNodes st = (.ambiguous cs, ns2, st2))
    ∧ (∀ (bn : List String) (nodeA : Nat) (c : Call) (cs : List Nat) (s : AsmState),
      (∀ p ∈ s.missingByKey, p.2 < s.st.nodes.length ∧
        (s.st.node p.2).missing = true) →
      (∀ p ∈ s.libNodesBySig, p.2 < s.st.nodes.length ∧
        (s.st.node p.2).is_library = true) →
      (processLink bn nodeA c (.ambiguous cs) s).badCalls = s.badCalls ++ [c]
      ∧ ∃ n lbl, (processLink bn nodeA c (.ambiguous cs) s).edges =
          s.edges ++ [{ node0 := nodeA, node1 := .node n, label := lbl }]
        ∧ (((processLink bn nodeA c (.ambiguous cs) s).st.node n).missing = true
          ∨ ((processLink bn nodeA c (.ambiguous cs) s).st.node n).is_library = true))
    ∧ (∀ (bc : List Call),
      (badCallsStrings bc).Nodup
      ∧ ∀ x, x ∈ badCallsStrings bc ↔ x ∈ bc.map Call.toStr) := by
  refine ⟨?_, ?_, ?_, ?_, ?_, ?_⟩
  · intro heur c nodeA allNodes st cs h
    simp [findLinkForCall, h]
  · intro heur c nodeA allNodes st cs ns2 st2 h1 h2
    simp [findLinkForCall, h1, findLinkFromSelf, h2]
  · intro heur c nodeA allNodes st cs h1 h2 h3 h4
    simp [findLinkForCall, h1, findLinkFromSelf, h2, findLinkFromLibSig, h3, h4]
  · intro heur c nodeA allNodes st cs ns2 st2 h1 h2 h3 h4 h5 h6 h7 h8
    simp [findLinkForCall, h1, findLinkFromSelf, h2, findLinkFromLibSig, h3, h4,
      findLinkFromVars, h5, h6, findLinkFromFactory, h7, h8]
  · intro bn nodeA c cs s hmw hlw
    simp only [processLink]
    by_cases hb : c.owner_token = none ∧ c.token ∈ bn
    · rw [if_pos hb]
      rcases resolveBuiltin_target c { s with badCalls := s.badCalls ++ [c] }
          hlw with ⟨n, h1, h2, h3, h4⟩
      refine ⟨by simpa using h3, n, edgeLabel c (.ambiguous cs), ?_,
        Or.inr (by simpa using h2)⟩
      simp [h4, h1]
    · rw [if_neg hb]
      rcases resolveMissing_target c { s with badCalls := s.badCalls ++ [c] }
          hmw with ⟨n, h1, h2, h3, h4⟩
      refine ⟨by simpa using h3, n, edgeLabel c (.ambiguous cs), ?_,
        Or.inl (by simpa using h2)⟩
      simp [h4, h1]
  · intro bc
    constructor
    · exact ((List.perm_insertionSort _ _).nodup_iff).mpr (List.nodup_dedup _)
    · intro x
      rw [badCallsStrings, List.mem_insertionSort, List.mem_dedup]

/-- Witness for C1 as amended: direct-match ambiguity halts resolution in
`exAmbigSt`, and processing that ambiguous link records the call and adds
exactly one edge, to a synthesized placeholder. -/
theorem claim_C1_witness :
    findLinkForCall true exAmbigCall 2 [0, 1, 2] exAmbigSt =
      (.ambiguous [0, 1], [0, 1, 2], exAmbigSt)
    ∧ ((processLink [] 2 exAmbigCall (.ambiguous [0, 1]) exAmbigAsm).badCalls =
        exAmbigAsm.badCalls ++ [exAmbigCall]
      ∧ ∃ n lbl, (processLink [] 2 exAmbigCall (.ambiguous [0, 1]) exAmbigAsm).edges =
          exAmbigAsm.edges ++ [{ node0 := 2, node1 := .node n, label := lbl }]
        ∧ (((processLink [] 2 exAmbigCall (.ambiguous [0, 1]) exAmbigAsm).st.node n).missing = true
          ∨ ((processLink [] 2 exAmbigCall (.ambiguous [0, 1]) exAmbigAsm).st.node n).is_library = true)) :=
  ⟨claim_C1_ambiguity_handling.2.2.2.1 true exAmbigCall 2 [0, 1, 2] exAmbigSt
      [0, 1] [0, 1, 2] exAmbigSt (by decide) (by decide) (by decide) (by decide)
      (by decide) (by decide) (by decide) (by decide),
    claim_C1_ambiguity_handling.2.2.2.2.1 [] 2 exAmbigCall [0, 1] exAmbigAsm
      (by simp [exAmbigAsm]) (by simp [exAmbigAsm])⟩

/-- Counterexample to C9 as stated: the claim requires every
configuration error — including an unresolvable target-function name — to
be raised before any parsing occurs, but with a target that matches no
node the run parses first and only then raises the assertion error inside
subset filtering; the concrete trace shows the parse event preceding the
error event. -/
theorem claim_C9_counterexample :
    code2flowEvents (some "zzz") 1 0 [0] exC9St =
      [.subsetChecked, .parsed,
        .errorRaised "Could not find node zzz to build a subset."]
    ∧ ¬ (∀ (t : Option String) (u d : Int) (ns : List Nat) (st : St),
        (∃ m, PEvent.errorRaised m ∈ code2flowEvents t u d ns st) →
        PEvent.parsed ∉ code2flowEvents t u d ns st) := by
  constructor
  · decide
  · intro h
    exact h (some "zzz") 1 0 [0] exC9St
      ⟨"Could not find node zzz to build a subset.", by decide⟩ (by decide)

/-- C9 as amended.  A depth given without a target function, a target
without at least one depth, and a negative depth are fatal assertion
errors raised by SubsetParams.generate before any parsing; an
unresolvable or multiply-resolvable target-function name is also a fatal
assertion error, but it is raised only after parsing, when the subset
filter resolves the name against the parsed node set; a unique target
match (bare name, Class.method or file::Class.method form) raises no
error. -/
theorem claim_C9_subset_validation :
    (∀ (t : Option String) (u d : Int) (ns : List Nat) (st : St),
      u ≠ 0 → targetTruthy t = false →
      code2flowEvents t u d ns st =
        [.errorRaised "--upstream-depth requires --target-function"])
    ∧ (∀ (t : Option String) (u d : Int) (ns : List Nat) (st : St),
      d ≠ 0 → u = 0 → targetTruthy t = false →
      code2flowEvents t u d ns st =
        [.errorRaised "--downstream-depth requires --target-function"])
    ∧ (∀ (t : Option String) (ns : List Nat) (st : St),
      targetTruthy t = true →
      code2flowEvents t 0 0 ns st =
        [.errorRaised
          "--target-function requires --upstream-depth or --downstream-depth"])
    ∧ (∀ (t : Option String) (u d : Int) (ns : List Nat) (st : St),
      targetTruthy t = true → u < 0 →
      code2flowEvents t u d ns st = [.errorRaised "--upstream-depth must be >= 0"])
    ∧ (∀ (t : Option String) (u d : Int) (ns : List Nat) (st : St),
      targetTruthy t = true → 0 ≤ u → d < 0 →
      code2flowEvents t u d ns st = [.errorRaised "--downstream-depth must be >= 0"])
    ∧ (∀ (t : Option String) (u d : Int) (ns : List Nat) (st : St) (m : String),
      targetTruthy t = true → (u ≠ 0 ∨ d ≠ 0) → 0 ≤ u → 0 ≤ d →
      findTargetNode (t.getD "") ns st = .error m →
      code2flowEvents t u d ns st = [.subsetChecked, .parsed, .errorRaised m])
    ∧ (∀ (t : Option String) (u d : Int) (ns : List Nat) (st : St) (n : Nat),
      targetTruthy t = true → (u ≠ 0 ∨ d ≠ 0) → 0 ≤ u → 0 ≤ d →
      findTargetNode (t.getD "") ns st = .ok n →
      code2flowEvents t u d ns st = [.subsetChecked, .parsed, .subsetFiltered])
    ∧ (∀ (tf : String) (ns : List Nat) (st : St),
      (targetNodesFor tf ns st = [] → ∃ m, findTargetNode tf ns st = .error m)
      ∧ (∀ n, targetNodesFor tf ns st = [n] → findTargetNode tf ns st = .ok n)
      ∧ (∀ n1 n2 rest, targetNodesFor tf ns st = n1 :: n2 :: rest →
          ∃ m, findTargetNode tf ns st = .error m)) := by
  refine ⟨?_, ?_, ?_, ?_, ?_, ?_, ?_, ?_⟩
  · intro t u d ns st hu ht
    simp [code2flowEvents, subsetParamsGenerate, hu, ht]
  · intro t u d ns st hd hu ht
    simp [code2flowEvents, subsetParamsGenerate, hd, hu, ht]
  · intro t ns st ht
    simp [code2flowEvents, subsetParamsGenerate, ht]
  · intro t u d ns st ht hu
    have hu0 : u ≠ 0 := by omega
    simp [code2flowEvents, subsetParamsGenerate, ht, hu0, hu]
  · intro t u d ns st ht hu hd
    have hd0 : d ≠ 0 := by omega
    have hu0 : ¬ u < 0 := by omega
    simp [code2flowEvents, subsetParamsGenerate, ht, hd0, hu0, hd]
  · intro t u d ns st m ht hdep hu hd hf
    have hu0 : ¬ u < 0 := by omega
    have hd0 : ¬ d < 0 := by omega
    simp [code2flowEvents, subsetParamsGenerate, ht, hdep, hu0, hd0, hf]
  · intro t u d ns st n ht hdep hu hd hf
    have hu0 : ¬ u < 0 := by omega
    have hd0 : ¬ d < 0 := by omega
    simp [code2flowEvents, subsetParamsGenerate, ht, hdep, hu0, hd0, hf]
  · intro tf ns st
    refine ⟨?_, ?_, ?_⟩
    · intro h
      exact ⟨"Could not find node " ++ tf ++ " to build a subset.",
        by simp [findTargetNode, h]⟩
    · intro n h
      simp [findTargetNode, h]
    · intro n1 n2 rest h
      exact ⟨"Found multiple nodes for " ++ tf ++ ".",
        by simp [findTargetNode, h]⟩

/-- Witness for C9 as amended: a depth without a target errors before
parsing; an unresolvable target errors only after parsing; a unique
target match raises no error. -/
theorem claim_C9_witness :
    code2flowEvents none 1 0 [0] exC9St =
      [.errorRaised "--upstream-depth requires --target-function"]
    ∧ code2flowEvents (some "zzz") 1 0 [0] exC9St =
      [.subsetChecked, .parsed,
        .errorRaised "Could not find node zzz to build a subset."]
    ∧ code2flowEvents (some "f") 1 0 [0] exC9St =
      [.subsetChecked, .parsed, .subsetFiltered] :=
  ⟨claim_C9_subset_validation.1 none 1 0 [0] exC9St (by decide) (by decide),
    claim_C9_subset_validation.2.2.2.2.2.1 (some "zzz") 1 0 [0] exC9St
      "Could not find node zzz to build a subset."
      (by decide) (Or.inl (by decide)) (by decide) (by decide) (by rfl),
    claim_C9_subset_validation.2.2.2.2.2.2.1 (some "f") 1 0 [0] exC9St 0
      (by decide) (Or.inl (by decide)) (by decide) (by decide) (by rfl)⟩

mutual

/-- Removing emptied groups does not change the flattened node list. -/
theorem allNodes_pruneT : ∀ (g : GTree), (pruneT g).allNodes = g.allNodes
  | .mk ns subs => by
    simp only [pruneT, GTree.allNodes]
    rw [allNodes_pruneList subs]

/-- Forest version of `allNodes_pruneT`. -/
theorem allNodes_pruneList :
    ∀ (l : List GTree), allNodesList (pruneList l) = allNodesList l
  | [] => rfl
  | g :: gs => by
    simp only [pruneList]
    by_cases h : g.allNodes.isEmpty
    · rw [if_pos h, allNodes_pruneList gs]
      simp only [allNodesList]
      rw [List.isEmpty_iff.mp h]
      simp
    · rw [if_neg h]
      simp only [allNodesList]
      rw [allNodes_pruneT g, allNodes_pruneList gs]

end

mutual

/-- Every node surviving the node-removal pass has an incident edge. -/
theorem mem_allNodes_nodeTrimT :
    ∀ (S : List Nat) (g : GTree) (x : Nat), x ∈ (nodeTrimT S g).allNodes → x ∈ S
  | S, .mk ns subs, x => by
    simp only [nodeTrimT, GTree.allNodes]
    intro h
    rcases List.mem_append.mp h with h | h
    · have := List.of_mem_filter h
      simpa using this
    · exact mem_allNodes_nodeTrimList S subs x h

/-- Forest version of `mem_allNodes_nodeTrimT`. -/
theorem mem_allNodes_nodeTrimList :
    ∀ (S : List Nat) (l : List GTree) (x : Nat),
      x ∈ allNodesList (nodeTrimList S l) → x ∈ S
  | S, [], x => by simp [nodeTrimList, allNodesList]
  | S, g :: gs, x => by
    simp only [nodeTrimList, allNodesList]
    intro h
    rcases List.mem_append.mp h with h | h
    · exact mem_allNodes_nodeTrimT S g x h
    · exact mem_allNodes_nodeTrimList S gs x h

end

mutual

/-- The node-removal pass is the identity on a group whose nodes all have
an incident edge. -/
theorem nodeTrimT_of_subset :
    ∀ (S : List Nat) (g : GTree), (∀ x ∈ g.allNodes, x ∈ S) → nodeTrimT S g = g
  | S, .mk ns subs, h => by
    simp only [nodeTrimT, GTree.mk.injEq]
    constructor
    · refine List.filter_eq_self.mpr (fun a ha => ?_)
      have : a ∈ (GTree.mk ns subs).allNodes := by
        simp only [GTree.allNodes]
        exact List.mem_append.mpr (Or.inl ha)
      simpa using h a this
    · refine nodeTrimList_of_subset S subs (fun x hx => ?_)
      refine h x ?_
      simp only [GTree.allNodes]
      exact List.mem_append.mpr (Or.inr hx)

/-- Forest version of `nodeTrimT_of_subset`. -/
theorem nodeTrimList_of_subset :
    ∀ (S : List Nat) (l : List GTree),
      (∀ x ∈ allNodesList l, x ∈ S) → nodeTrimList S l = l
  | S, [], _ => rfl
  | S, g :: gs, h => by
    simp only [nodeTrimList, List.cons.injEq]
    constructor
    · refine nodeTrimT_of_subset S g (fun x hx => ?_)
      refine h x ?_
      simp only [allNodesList]
      exact List.mem_append.mpr (Or.inl hx)
    · refine nodeTrimList_of_subset S gs (fun x hx => ?_)
      refine h x ?_
      simp only [allNodesList]
      exact List.mem_append.mpr (Or.inr hx)

end

mutual

/-- Removing emptied groups is idempotent. -/
theorem pruneT_idem : ∀ (g : GTree), pruneT (pruneT g) = pruneT g
  | .mk ns subs => by
    simp only [pruneT, GTree.mk.injEq, true_and]
    exact pruneList_idem subs

/-- Forest version of `pruneT_idem`. -/
theorem pruneList_idem : ∀ (l : List GTree), pruneList (pruneList l) = pruneList l
  | [] => rfl
  | g :: gs => by
    by_cases h : g.allNodes.isEmpty
    · simp only [pruneList, if_pos h]
      exact pruneList_idem gs
    · simp only [pruneList, if_neg h]
      have h2 : (pruneT g).allNodes.isEmpty = false := by
        rw [allNodes_pruneT g]
        simpa using h
      simp only [pruneList, h2, if_neg]
      rw [pruneT_idem g, pruneList_idem gs]
      simp

end

/-- C8.  Trimming reaches a fixpoint in one application: for every graph
(edges and group forest), applying the trim step of `map_it` — remove
nodes with no incident edge, then remove emptied groups, then keep only
file groups that still own nodes — twice yields the same node set, edge
set and group forest as applying it once. -/
theorem claim_C8_trim_fixpoint (edges : List (Nat × Nat)) (gs : List GTree) :
    trimStep edges (trimStep edges gs).2.2 = trimStep edges gs := by
  simp only [trimStep]
  refine congrArg _ (congrArg _ ?_)
  set S := ((edges.map Prod.fst) ++ (edges.map Prod.snd)).dedup with hS
  set f : GTree → GTree := fun g => pruneT (nodeTrimT S g) with hf
  set p : GTree → Bool := fun g => decide (¬ g.allNodes.isEmpty = true) with hp
  have hfix : ∀ g, f (f g) = f g := by
    intro g
    have hsub : ∀ x ∈ (f g).allNodes, x ∈ S := by
      intro x hx
      rw [hf] at hx
      simp only at hx
      rw [allNodes_pruneT] at hx
      exact mem_allNodes_nodeTrimT S g x hx
    calc f (f g) = pruneT (nodeTrimT S (f g)) := rfl
    _ = pruneT (f g) := by rw [nodeTrimT_of_subset S (f g) hsub]
    _ = pruneT (pruneT (nodeTrimT S g)) := rfl
    _ = pruneT (nodeTrimT S g) := pruneT_idem _
    _ = f g := rfl
  have hmap : ((gs.map f).filter p).map f = (gs.map f).filter p := by
    have : ∀ g ∈ (gs.map f).filter p, f g = g := by
      intro g hg
      rcases List.mem_map.mp (List.mem_of_mem_filter hg) with ⟨g0, _, rfl⟩
      exact hfix g0
    calc ((gs.map f).filter p).map f = ((gs.map f).filter p).map id :=
      List.map_congr_left this
    _ = (gs.map f).filter p := List.map_id _
  have hfil : ∀ g ∈ (gs.map f).filter p, p g = true :=
    fun g hg => List.of_mem_filter hg
  show ((((gs.map f).filter p).map f).filter p) = (gs.map f).filter p
  rw [hmap]
  exact List.filter_eq_self.mpr hfil

/-- Association-list lookup skips a segment in which the key is absent. -/
theorem lookup_append_of_none {α β : Type} [BEq α] (l1 l2 : List (α × β)) (k : α)
    (h : l1.lookup k = none) : (l1 ++ l2).lookup k = l2.lookup k := by
  induction l1 with
  | nil => simp
  | cons a l ih =>
    rw [List.cons_append]
    cases a with
    | mk ka vb =>
      by_cases hk : k == ka
      · simp [List.lookup, hk] at h
      · simp [List.lookup, hk] at h ⊢
        exact ih h

/-- C6.  Placeholder synthesis is idempotent per signature: an unresolved
non-builtin call is linked (by the `map_it` edge loop) to a placeholder
node under the NotFound group keyed by the call's textual signature; the
first occurrence creates exactly one node, and any later resolution of a
call with the same signature returns that same node and leaves the state
unchanged, so a second node is never created. -/
theorem claim_C6_placeholder_idempotent :
    (∀ (bn : List String) (nodeA : Nat) (c : Call) (s : AsmState),
      ¬ (c.owner_token = none ∧ c.token ∈ bn) →
      processLink bn nodeA c .nomatch s =
        { (resolveMissing c s).2 with
          edges := (resolveMissing c s).2.edges ++
            [{ node0 := nodeA, node1 := (resolveMissing c s).1,
               label := edgeLabel c .nomatch }] })
    ∧ (∀ (c : Call) (s : AsmState) (n : Nat),
      s.missingByKey.lookup c.toStr = some n →
      resolveMissing c s = (.node n, s))
    ∧ (∀ (c : Call) (s : AsmState),
      s.missingByKey.lookup c.toStr = none →
      resolveMissing c s =
        (.node s.st.nodes.length,
          { s with
            st := { nodes := s.st.nodes ++
                      [{ token := c.token, parent := some s.missingGroup,
                         missing := true }],
                    groups := s.st.groups.set s.missingGroup
                      { s.st.group s.missingGroup with
                        nodes := (s.st.group s.missingGroup).nodes ++
                          [s.st.nodes.length] } },
            allNodes := s.allNodes ++ [s.st.nodes.length],
            missingByKey := s.missingByKey ++ [(c.toStr, s.st.nodes.length)] }))
    ∧ (∀ (c c2 : Call) (s : AsmState),
      c2.toStr = c.toStr →
      resolveMissing c2 (resolveMissing c s).2 =
        ((resolveMissing c s).1, (resolveMissing c s).2))
    ∧ initialMissingGroup.token = "NotFound" := by
  refine ⟨?_, ?_, ?_, ?_, rfl⟩
  · intro bn nodeA c s hnb
    simp only [processLink]
    rw [if_neg hnb]
  · intro c s n h
    simp [resolveMissing, h]
  · intro c s h
    simp [resolveMissing, h]
  · intro c c2 s h
    by_cases hl : s.missingByKey.lookup c.toStr = none
    · simp only [resolveMissing, hl]
      have hl2 : (s.missingByKey ++ [(c.toStr, s.st.nodes.length)]).lookup c2.toStr
          = some s.st.nodes.length := by
        rw [h, lookup_append_of_none _ _ _ hl]
        simp [List.lookup]
      simp [hl2]
    · rcases Option.ne_none_iff_exists'.mp hl with ⟨n, hn⟩
      have h2 : s.missingByKey.lookup c2.toStr = some n := by rw [h]; exact hn
      simp [resolveMissing, hn, h2]

/-- Witness for C6: resolving the bare call `f()` twice against an empty
state yields the same placeholder node with the second resolution leaving
the state untouched. -/
theorem claim_C6_witness :
    resolveMissing exAmbigCall (resolveMissing exAmbigCall exMissingAsm).2 =
      ((resolveMissing exAmbigCall exMissingAsm).1,
        (resolveMissing exAmbigCall exMissingAsm).2)
    ∧ processLink [] 2 exAmbigCall .nomatch exMissingAsm =
      { (resolveMissing exAmbigCall exMissingAsm).2 with
        edges := (resolveMissing exAmbigCall exMissingAsm).2.edges ++
          [{ node0 := 2, node1 := (resolveMissing exAmbigCall exMissingAsm).1,
             label := edgeLabel exAmbigCall .nomatch }] } :=
  ⟨claim_C6_placeholder_idempotent.2.2.2.1 exAmbigCall exAmbigCall exMissingAsm rfl,
    claim_C6_placeholder_idempotent.1 [] 2 exAmbigCall exMissingAsm (by decide)⟩

end Code2flow
